import Mathlib

/-!
# XInput Start+Back watcher (`src/native/xinput/src/xinput_native.cc`)

A shallow embedding of `Watcher::PollLoop`, `Watcher::Start`,
`Watcher::StopInternal` and the destructor, and the properties of the hold /
cooldown detector and of the watcher's lifecycle proved about it.

* `DWORD` values are natural numbers below `2^32`; the unsigned subtraction of
  the source is `dwordSub`.
* One pass of the `while` body is a `Tick`: the results of the four
  `XInputGetState` calls (`none` when the call did not return `ERROR_SUCCESS`,
  `some wButtons` otherwise) and the value `GetTickCount()` returns during
  that pass.
* What the body does besides updating its three locals is recorded as a trace
  of `Ev` events, in program order.
-/

namespace XInputWatcher

/-! ## Constants and machine arithmetic -/

/-- Line 103: `const DWORD BUTTON_START = 0x0010;` -/
def BUTTON_START : Nat := 0x0010

/-- Line 104: `const DWORD BUTTON_BACK = 0x0020;` -/
def BUTTON_BACK : Nat := 0x0020

/-- The member `cooldownMs_`, set to 2000 in the constructor's initialiser list. -/
def cooldownMs : Nat := 2000

/-- The member `holdMs_`, set to 200 in the constructor's initialiser list. -/
def holdMs : Nat := 200

/-- Unsigned 32-bit subtraction `a - b` on `DWORD`s. -/
def dwordSub (a b : Nat) : Nat :=
  (a % 4294967296 + 4294967296 - b % 4294967296) % 4294967296

/-! ## The detector: locals of `PollLoop` and one slot of the `for` loop -/

/-- The three locals of `PollLoop` that survive from one pass to the next. -/
structure ComboState where
  holdStart : Nat
  comboArmed : Bool
  lastFireTick : Nat
deriving DecidableEq, Repr

/-- Values of the locals when the `while` loop is entered (lines 105-107). -/
def initLoop : ComboState :=
  { holdStart := 0, comboArmed := false, lastFireTick := 0 }

/-- Observable steps of the loop body: `arm` is lines 125-126, `fire` is lines
133-134 (the fire decision), `call` is the `BlockingCall` of line 137. -/
inductive Ev where
  | arm
  | fire
  | call
deriving DecidableEq, Repr

/-- State and trace produced by a piece of the loop body. -/
structure Out where
  st : ComboState
  trace : List Ev
deriving DecidableEq, Repr

/-- The test `startPressed && backPressed` of lines 119-121. -/
def chordPressed (wButtons : Nat) : Bool :=
  (wButtons &&& BUTTON_START != 0) && (wButtons &&& BUTTON_BACK != 0)

/-- Lines 119-150: the body of `if (fxInputGetState(i, &state) == ERROR_SUCCESS)`
after `any = true`, for a slot whose button mask is `wButtons`. `cb` says whether
`cb_` is non-empty; `c1`, `c2`, `c3` are the values returned by the three
`GetTickCount()` calls of lines 126, 128 and 130. -/
def slotBody (cb : Bool) (c1 c2 c3 : Nat) (s : ComboState) (wButtons : Nat) : Out :=
  if chordPressed wButtons then
    let s1 : ComboState :=
      if s.comboArmed then s else { s with comboArmed := true, holdStart := c1 }
    let e1 : List Ev := if s.comboArmed then [] else [Ev.arm]
    if s1.comboArmed = true ∧ holdMs ≤ dwordSub c2 s1.holdStart then
      if cooldownMs ≤ dwordSub c3 s1.lastFireTick then
        { st := { s1 with lastFireTick := c3, comboArmed := false },
          trace := e1 ++ Ev.fire :: (if cb then [Ev.call] else []) }
      else { st := s1, trace := e1 }
    else { st := s1, trace := e1 }
  else { st := { s with comboArmed := false }, trace := [] }

/-- State of the `for` loop of lines 112-152: the detector, the flag `any` and
the events so far. -/
structure SlotsOut where
  st : ComboState
  any : Bool
  trace : List Ev
deriving DecidableEq, Repr

/-- The `for (DWORD i = 0; i < 4; ++i)` loop over the slot results still to be
visited, every `GetTickCount()` of the pass returning `now`. -/
def pollSlots (cb : Bool) (now : Nat) : ComboState → Bool → List (Option Nat) → SlotsOut
  | s, any, [] => { st := s, any := any, trace := [] }
  | s, any, none :: rest => pollSlots cb now s any rest
  | s, _, some w :: rest =>
    let o := slotBody cb now now now s w
    let r := pollSlots cb now o.st true rest
    { st := r.st, any := r.any, trace := o.trace ++ r.trace }

/-- One pass of the `while` body: what the four `XInputGetState` calls returned
and the clock value of the pass. -/
structure Tick where
  slot0 : Option Nat
  slot1 : Option Nat
  slot2 : Option Nat
  slot3 : Option Nat
  now : Nat
deriving DecidableEq, Repr

/-- The four slot results in the order the loop visits them. -/
def Tick.slots (t : Tick) : List (Option Nat) :=
  [t.slot0, t.slot1, t.slot2, t.slot3]

/-- Lines 111-156: one pass of the `while` body (the `Sleep(30)` apart). -/
def tickBody (cb : Bool) (s : ComboState) (t : Tick) : Out :=
  let r := pollSlots cb t.now s false t.slots
  { st := if r.any then r.st else { r.st with comboArmed := false },
    trace := r.trace }

/-- The pass reached the fire decision (lines 133-134). -/
def fired (o : Out) : Bool := o.trace.contains Ev.fire

/-- Number of `BlockingCall`s issued by the pass. -/
def calls (o : Out) : Nat := o.trace.count Ev.call

/-- The locals after the passes `ticks`, starting from `s`. -/
def runTicks (cb : Bool) : ComboState → List Tick → ComboState
  | s, [] => s
  | s, t :: rest => runTicks cb (tickBody cb s t).st rest

/-- Clock values of the passes that reached the fire decision, in order. -/
def fireTimes (cb : Bool) : ComboState → List Tick → List Nat
  | _, [] => []
  | s, t :: rest =>
    (if fired (tickBody cb s t) then [t.now] else [])
      ++ fireTimes cb (tickBody cb s t).st rest

/-- Total number of `BlockingCall`s issued over the passes `ticks`. -/
def callCount (cb : Bool) : ComboState → List Tick → Nat
  | _, [] => 0
  | s, t :: rest => calls (tickBody cb s t) + callCount cb (tickBody cb s t).st rest

/-- The slot loop restricted to the slots that answered: `slotBody` run over
their button masks in slot order (a failed query changes neither the locals nor
the trace, see `pollSlots_eq_visit`). -/
def visit (cb : Bool) (now : Nat) : ComboState → List Nat → Out
  | s, [] => { st := s, trace := [] }
  | s, w :: ws =>
    let o := slotBody cb now now now s w
    let r := visit cb now o.st ws
    { st := r.st, trace := o.trace ++ r.trace }

/-! ## Shapes of ticks used in the statements -/

/-- Some successfully queried slot of the pass has START and BACK both set. -/
def chordSeen (t : Tick) : Bool :=
  t.slots.any fun r =>
    match r with
    | some w => chordPressed w
    | none => false

/-- Button masks of the successfully queried slots, in slot order. -/
def connected (t : Tick) : List Nat := t.slots.reduceOption

/-- Exactly one slot is connected and it holds the chord. -/
def soloHeld (t : Tick) : Bool :=
  match connected t with
  | [w] => chordPressed w
  | _ => false

/-- Exactly one slot is connected and it does not hold the chord. -/
def soloReleased (t : Tick) : Bool :=
  match connected t with
  | [w] => !chordPressed w
  | _ => false

/-- All four queries of the pass failed. -/
def allFailed (t : Tick) : Bool := (connected t).isEmpty

/-- A pass in which only slot 0 answers, with button mask `w`. -/
def pad (w now : Nat) : Tick :=
  { slot0 := some w, slot1 := none, slot2 := none, slot3 := none, now := now }

/-- A pass in which slots 0 and 1 answer, with button masks `w0` and `w1`. -/
def pad2 (w0 w1 now : Nat) : Tick :=
  { slot0 := some w0, slot1 := some w1, slot2 := none, slot3 := none, now := now }

/-- Passes of `pad w` at the clock values `t0, t0 + dt, ..., t0 + (n-1) * dt`. -/
def every (dt : Nat) (w t0 : Nat) (n : Nat) : List Tick :=
  (List.range n).map fun k => pad w (t0 + dt * k)

/-! ## Lifecycle: `Start` and `StopInternal` -/

/-- The lifecycle fields of a `Watcher`: `running_`, whether `worker_` is
joinable, whether `cb_` is non-empty, and bookkeeping of the polling threads
created and joined so far. `terminated` records that `std::terminate` was
called, which is what assigning to a joinable `std::thread` does. -/
structure Watcher where
  running : Bool
  workerJoinable : Bool
  cbHeld : Bool
  spawned : Nat
  joined : Nat
  terminated : Bool
deriving DecidableEq, Repr

/-- The watcher the constructor (lines 27-37) leaves when it is given a
function: not running, no thread, callback held. -/
def newWatcher : Watcher :=
  { running := false
    workerJoinable := false
    cbHeld := true
    spawned := 0
    joined := 0
    terminated := false }

/-- Lines 50-57, `Watcher::Start`. -/
def Start (w : Watcher) : Watcher :=
  if w.running then w
  else
    { w with
      running := true
      spawned := w.spawned + 1
      terminated := w.terminated || w.workerJoinable
      workerJoinable := true }

/-- Lines 64-75, `Watcher::StopInternal` (also `Stop` and the destructor). -/
def StopInternal (w : Watcher) : Watcher :=
  if !w.running then w
  else
    { w with
      running := false
      joined := if w.workerJoinable then w.joined + 1 else w.joined
      workerJoinable := false
      cbHeld := false }

/-- Lines 45-48, `Watcher::IsRunning`: the value of `running_`. -/
def IsRunning (w : Watcher) : Bool := w.running

/-- Lines 96-101 seen from the lifecycle state: the polling thread stores
`false` into `running_` and returns. The thread has ended but nobody has joined
it, so `worker_` stays joinable. Only a thread that exists can do this. -/
def pollGivesUp (w : Watcher) : Watcher :=
  if w.workerJoinable then { w with running := false } else w

/-- Lines 39-42 and the destruction of the members that follows the destructor
body: `StopInternal()`, then `worker_` is destroyed, and destroying a joinable
`std::thread` calls `std::terminate`. -/
def Destroy (w : Watcher) : Watcher :=
  let w1 := StopInternal w
  { w1 with terminated := w1.terminated || w1.workerJoinable }

/-- What can happen to a watcher between construction and destruction: a call
of `start()`, a call of `stop()`, or its polling thread giving up at lines
96-101. -/
inductive Op where
  | start
  | stop
  | giveUp
deriving DecidableEq, Repr

/-- The effect of one `Op` on the lifecycle state. -/
def Op.apply : Op → Watcher → Watcher
  | Op.start, w => Start w
  | Op.stop, w => StopInternal w
  | Op.giveUp, w => pollGivesUp w

/-- The lifecycle state after the operations `ops`, in order. -/
def runOps : Watcher → List Op → Watcher
  | w, [] => w
  | w, op :: rest => runOps (op.apply w) rest

/-! ## Entry of `PollLoop`: resolving `XInputGetState` -/

/-- What `LoadLibraryW` and `GetProcAddress` give for one DLL name of line 82:
no library, a library without the symbol (it is freed again), or the symbol. -/
inductive Probe where
  | noLibrary
  | noSymbol
  | resolved
deriving DecidableEq, Repr

/-- Lines 84-95: the index of the first DLL name that yields `XInputGetState`,
`none` when `fxInputGetState` is still null after the loop. -/
def resolveXInput : List Probe → Option Nat
  | [] => none
  | Probe.resolved :: _ => some 0
  | _ :: rest => (resolveXInput rest).map (· + 1)

/-- What one run of `PollLoop` did: whether it stored `false` into `running_`
(line 99), how many `XInputGetState` calls and `BlockingCall`s it made, and the
clock values of its fire decisions. -/
structure PollOut where
  clearedRunning : Bool
  queries : Nat
  calls : Nat
  fires : List Nat
deriving DecidableEq, Repr

/-- Lines 77-159, `Watcher::PollLoop`. `probes` are the outcomes for the DLL
names, `ticks` the passes of the `while` body made while `running_` read `true`;
each pass queries the four slots. -/
def PollLoop (cb : Bool) (probes : List Probe) (ticks : List Tick) : PollOut :=
  match resolveXInput probes with
  | none => { clearedRunning := true, queries := 0, calls := 0, fires := [] }
  | some _ =>
    { clearedRunning := false
      queries := 4 * ticks.length
      calls := callCount cb initLoop ticks
      fires := fireTimes cb initLoop ticks }

/-- The watcher after its polling thread has run `PollLoop` with the callback
the watcher holds. -/
def afterPollLoop (probes : List Probe) (ticks : List Tick) (w : Watcher) : Watcher :=
  if (PollLoop w.cbHeld probes ticks).clearedRunning then pollGivesUp w else w

/-- Every successfully queried slot holds the chord, and there is one. -/
def allHeld (t : Tick) : Bool :=
  !(connected t).isEmpty && (connected t).all chordPressed

/-! ## Machine arithmetic -/

theorem dwordSub_self (a : Nat) : dwordSub a a = 0 := by
  unfold dwordSub
  omega

theorem dwordSub_of_le {a b : Nat} (hba : b ≤ a) (ha : a < 4294967296) :
    dwordSub a b = a - b := by
  unfold dwordSub
  omega

theorem dwordSub_lt (a b : Nat) : dwordSub a b < 4294967296 := by
  unfold dwordSub
  omega

/-! ## One slot -/

theorem slotBody_released {cb : Bool} {now : Nat} {s : ComboState} {w : Nat}
    (hw : chordPressed w = false) :
    slotBody cb now now now s w = { st := { s with comboArmed := false }, trace := [] } := by
  simp [slotBody, hw]

theorem slotBody_arm {cb : Bool} {now : Nat} {s : ComboState} {w : Nat}
    (hw : chordPressed w = true) (ha : s.comboArmed = false) :
    slotBody cb now now now s w =
      { st := { s with comboArmed := true, holdStart := now }, trace := [Ev.arm] } := by
  simp [slotBody, hw, ha, dwordSub_self, holdMs]

theorem slotBody_wait {cb : Bool} {now : Nat} {s : ComboState} {w : Nat}
    (hw : chordPressed w = true) (ha : s.comboArmed = true)
    (hn : ¬(holdMs ≤ dwordSub now s.holdStart ∧ cooldownMs ≤ dwordSub now s.lastFireTick)) :
    slotBody cb now now now s w = { st := s, trace := [] } := by
  by_cases h1 : holdMs ≤ dwordSub now s.holdStart
  · have h2 : ¬ cooldownMs ≤ dwordSub now s.lastFireTick := fun h => hn ⟨h1, h⟩
    simp [slotBody, hw, ha, h1, h2]
  · simp [slotBody, hw, ha, h1]

theorem slotBody_fire {cb : Bool} {now : Nat} {s : ComboState} {w : Nat}
    (hw : chordPressed w = true) (ha : s.comboArmed = true)
    (h1 : holdMs ≤ dwordSub now s.holdStart) (h2 : cooldownMs ≤ dwordSub now s.lastFireTick) :
    slotBody cb now now now s w =
      { st := { s with lastFireTick := now, comboArmed := false },
        trace := Ev.fire :: (if cb then [Ev.call] else []) } := by
  simp [slotBody, hw, ha, h1, h2]

/-- The four ways a successfully queried slot can go when the clock stands at
`now` for the whole pass: released, freshly armed, armed and waiting, fired. -/
theorem slotBody_cases (cb : Bool) (now : Nat) (s : ComboState) (w : Nat) :
    (chordPressed w = false ∧
      slotBody cb now now now s w = { st := { s with comboArmed := false }, trace := [] }) ∨
    (chordPressed w = true ∧ s.comboArmed = false ∧
      slotBody cb now now now s w =
        { st := { s with comboArmed := true, holdStart := now }, trace := [Ev.arm] }) ∨
    (chordPressed w = true ∧ s.comboArmed = true ∧
      ¬(holdMs ≤ dwordSub now s.holdStart ∧ cooldownMs ≤ dwordSub now s.lastFireTick) ∧
      slotBody cb now now now s w = { st := s, trace := [] }) ∨
    (chordPressed w = true ∧ s.comboArmed = true ∧
      holdMs ≤ dwordSub now s.holdStart ∧ cooldownMs ≤ dwordSub now s.lastFireTick ∧
      slotBody cb now now now s w =
        { st := { s with lastFireTick := now, comboArmed := false },
          trace := Ev.fire :: (if cb then [Ev.call] else []) }) := by
  cases hw : chordPressed w
  · exact Or.inl ⟨rfl, slotBody_released hw⟩
  · cases ha : s.comboArmed
    · exact Or.inr (Or.inl ⟨rfl, rfl, slotBody_arm hw ha⟩)
    · by_cases hn : holdMs ≤ dwordSub now s.holdStart ∧ cooldownMs ≤ dwordSub now s.lastFireTick
      · exact Or.inr (Or.inr (Or.inr ⟨rfl, rfl, hn.1, hn.2, slotBody_fire hw ha hn.1 hn.2⟩))
      · exact Or.inr (Or.inr (Or.inl ⟨rfl, rfl, hn, slotBody_wait hw ha hn⟩))

/-! ## The slot loop -/

theorem pollSlots_eq_visit (cb : Bool) (now : Nat) (l : List (Option Nat)) :
    ∀ (s : ComboState) (any : Bool),
      (pollSlots cb now s any l).st = (visit cb now s l.reduceOption).st ∧
      (pollSlots cb now s any l).trace = (visit cb now s l.reduceOption).trace ∧
      (pollSlots cb now s any l).any = (any || !l.reduceOption.isEmpty) := by
  induction l with
  | nil => intro s any; simp [pollSlots, visit]
  | cons r rest ih =>
    intro s any
    cases r with
    | none =>
      simpa [pollSlots, List.reduceOption_cons_of_none] using ih s any
    | some w =>
      obtain ⟨h1, h2, h3⟩ := ih (slotBody cb now now now s w).st true
      simp only [pollSlots, List.reduceOption_cons_of_some, visit]
      exact ⟨h1, by rw [h2]; rfl, by simp [h3]⟩

/-- One pass of the loop body in terms of the slots that answered. -/
theorem tickBody_eq (cb : Bool) (s : ComboState) (t : Tick) :
    tickBody cb s t =
      if connected t = [] then { st := { s with comboArmed := false }, trace := [] }
      else visit cb t.now s (connected t) := by
  obtain ⟨h1, h2, h3⟩ := pollSlots_eq_visit cb t.now t.slots s false
  unfold tickBody connected
  by_cases hc : t.slots.reduceOption = []
  · simp [h1, h2, h3, hc, visit]
  · have : t.slots.reduceOption.isEmpty = false := by
      cases h : t.slots.reduceOption with
      | nil => exact absurd h hc
      | cons a l => rfl
    simp [h1, h2, h3, hc, this]

theorem fired_iff (o : Out) : fired o = true ↔ Ev.fire ∈ o.trace := by
  simp [fired]

/-- If the detector is armed after the slots `ws`, either one of them armed it
at `now`, or nothing happened at all. -/
theorem visit_armed (cb : Bool) (now : Nat) (ws : List Nat) :
    ∀ s : ComboState, (visit cb now s ws).st.comboArmed = true →
      ((visit cb now s ws).st.holdStart = now ∧ Ev.arm ∈ (visit cb now s ws).trace) ∨
      ((visit cb now s ws).st = s ∧ (visit cb now s ws).trace = []) := by
  induction ws with
  | nil => intro s _; simp [visit]
  | cons w rest ih =>
    intro s ha
    simp only [visit] at ha ⊢
    rcases ih _ ha with ⟨h1, h2⟩ | ⟨h1, h2⟩
    · exact Or.inl ⟨h1, by simp [h2]⟩
    · rw [h1] at ha
      rcases slotBody_cases cb now s w with ⟨_, he⟩ | ⟨_, _, he⟩ | ⟨_, _, _, he⟩ | ⟨_, _, _, _, he⟩
      · simp [he] at ha
      · rw [he] at h1 h2 ⊢
        left; simp [h1, h2]
      · rw [he] at h1 h2 ⊢
        right; simp [h1, h2]
      · simp [he] at ha

/-- Without a fire decision `lastFireTick` keeps its value. -/
theorem visit_lastFire_of_not_fired (cb : Bool) (now : Nat) (ws : List Nat) :
    ∀ s : ComboState, Ev.fire ∉ (visit cb now s ws).trace →
      (visit cb now s ws).st.lastFireTick = s.lastFireTick := by
  induction ws with
  | nil => intro s _; simp [visit]
  | cons w rest ih =>
    intro s hf
    simp only [visit, List.mem_append, not_or] at hf ⊢
    rw [ih _ hf.2]
    rcases slotBody_cases cb now s w with ⟨_, he⟩ | ⟨_, _, he⟩ | ⟨_, _, _, he⟩ | ⟨_, _, _, _, he⟩
    · simp [he]
    · simp [he]
    · simp [he]
    · exact absurd (by simp [he]) hf.1

/-- What a fire decision during the slots `ws` presupposes and leaves behind. -/
theorem visit_fired (cb : Bool) (now : Nat) (ws : List Nat) :
    ∀ s : ComboState, Ev.fire ∈ (visit cb now s ws).trace →
      s.comboArmed = true ∧ holdMs ≤ dwordSub now s.holdStart ∧
      cooldownMs ≤ dwordSub now s.lastFireTick ∧
      (visit cb now s ws).st.lastFireTick = now ∧
      ((visit cb now s ws).st.comboArmed = true →
        (visit cb now s ws).st.holdStart = now ∧ Ev.arm ∈ (visit cb now s ws).trace) := by
  induction ws with
  | nil => intro s hf; simp [visit] at hf
  | cons w rest ih =>
    intro s hf
    simp only [visit, List.mem_append] at hf ⊢
    rcases slotBody_cases cb now s w with ⟨_, he⟩ | ⟨_, _, he⟩ | ⟨_, _, _, he⟩ | ⟨_, ha, hh, hc, he⟩
    · rw [he] at hf
      have := (ih _ (by simpa using hf)).1
      simp at this
    · rw [he] at hf
      have := (ih _ (by simpa using hf)).2.1
      simp [dwordSub_self, holdMs] at this
    · rw [he] at hf ⊢
      obtain ⟨h1, h2, h3, h4, h5⟩ := ih _ (by simpa using hf)
      exact ⟨h1, h2, h3, h4, fun h => ⟨(h5 h).1, by simpa using (h5 h).2⟩⟩
    · rw [he]
      have hnf : Ev.fire ∉ (visit cb now { s with lastFireTick := now, comboArmed := false } rest).trace := by
        intro h
        have := (ih _ h).1
        simp at this
      refine ⟨ha, hh, hc, ?_, ?_⟩
      · simpa using visit_lastFire_of_not_fired cb now rest _ hnf
      · intro h
        rcases visit_armed cb now rest _ h with ⟨h1, h2⟩ | ⟨h1, _⟩
        · exact ⟨h1, by simp [h2]⟩
        · rw [h1] at h
          simp at h

/-- A fire decision needs one of the slots to hold the chord, and so does
ending the slots armed. -/
theorem visit_quiet (cb : Bool) (now : Nat) (ws : List Nat) :
    ∀ s : ComboState, (∀ w ∈ ws, chordPressed w = false) →
      (visit cb now s ws).trace = [] ∧
      (visit cb now s ws).st = if ws = [] then s else { s with comboArmed := false } := by
  induction ws with
  | nil => intro s _; simp [visit]
  | cons w rest ih =>
    intro s hq
    have hw : chordPressed w = false := hq w (by simp)
    obtain ⟨h1, h2⟩ := ih { s with comboArmed := false } (fun x hx => hq x (by simp [hx]))
    simp only [visit, slotBody_released hw, h1, h2]
    by_cases hr : rest = [] <;> simp [hr]

/-! ## One pass of the loop body -/

theorem chordSeen_iff (t : Tick) :
    chordSeen t = true ↔ ∃ w ∈ connected t, chordPressed w = true := by
  unfold chordSeen connected
  generalize t.slots = l
  induction l with
  | nil => simp
  | cons r rest ih =>
    cases r with
    | none => simpa [List.reduceOption_cons_of_none] using ih
    | some w =>
      simp only [List.any_cons, Bool.or_eq_true, ih, List.reduceOption_cons_of_some,
        List.mem_cons, exists_eq_or_imp]

theorem chordSeen_false_iff (t : Tick) :
    chordSeen t = false ↔ ∀ w ∈ connected t, chordPressed w = false := by
  rw [← Bool.not_eq_true, chordSeen_iff]
  simp

/-- A pass in which no answering slot holds the chord does nothing but disarm. -/
theorem tickBody_quiet (cb : Bool) (s : ComboState) (t : Tick) (hq : chordSeen t = false) :
    tickBody cb s t = { st := { s with comboArmed := false }, trace := [] } := by
  rw [tickBody_eq]
  by_cases hc : connected t = []
  · simp [hc]
  · obtain ⟨h1, h2⟩ := visit_quiet cb t.now (connected t) s ((chordSeen_false_iff t).1 hq)
    simp only [hc, if_false] at h2 ⊢
    cases hv : visit cb t.now s (connected t) with
    | mk st trace =>
      rw [hv] at h1 h2
      simp only at h1 h2
      rw [h1, h2]

/-- A pass with a single answering slot is that slot's `slotBody`. -/
theorem tickBody_solo (cb : Bool) (s : ComboState) (t : Tick) (w : Nat)
    (hc : connected t = [w]) : tickBody cb s t = slotBody cb t.now t.now t.now s w := by
  rw [tickBody_eq, hc]
  simp [visit]

/-- What a fire decision during a pass presupposes and leaves behind. -/
theorem tickBody_fired (cb : Bool) (s : ComboState) (t : Tick)
    (hf : fired (tickBody cb s t) = true) :
    s.comboArmed = true ∧ holdMs ≤ dwordSub t.now s.holdStart ∧
    cooldownMs ≤ dwordSub t.now s.lastFireTick ∧
    (tickBody cb s t).st.lastFireTick = t.now ∧
    ((tickBody cb s t).st.comboArmed = true →
      (tickBody cb s t).st.holdStart = t.now ∧ Ev.arm ∈ (tickBody cb s t).trace) ∧
    chordSeen t = true := by
  have hseen : chordSeen t = true := by
    cases h : chordSeen t with
    | true => rfl
    | false => rw [tickBody_quiet cb s t h] at hf; simp [fired] at hf
  rw [fired_iff] at hf
  rw [tickBody_eq] at hf ⊢
  by_cases hc : connected t = []
  · simp [hc] at hf
  · simp only [hc, if_false] at hf ⊢
    obtain ⟨h1, h2, h3, h4, h5⟩ := visit_fired cb t.now (connected t) s hf
    exact ⟨h1, h2, h3, h4, h5, hseen⟩

/-- Without a fire decision `lastFireTick` keeps its value over the pass. -/
theorem tickBody_lastFire (cb : Bool) (s : ComboState) (t : Tick)
    (hf : fired (tickBody cb s t) = false) :
    (tickBody cb s t).st.lastFireTick = s.lastFireTick := by
  have hf2 : Ev.fire ∉ (tickBody cb s t).trace := by
    rw [← fired_iff]; simp [hf]
  rw [tickBody_eq] at hf2 ⊢
  by_cases hc : connected t = []
  · simp [hc]
  · simp only [hc, if_false] at hf2 ⊢
    exact visit_lastFire_of_not_fired cb t.now (connected t) s hf2

/-- If the detector is armed after a pass, some answering slot held the chord,
and either the pass armed it at its own clock value or the pass did nothing. -/
theorem tickBody_armed (cb : Bool) (s : ComboState) (t : Tick)
    (ha : (tickBody cb s t).st.comboArmed = true) :
    chordSeen t = true ∧
    (((tickBody cb s t).st.holdStart = t.now ∧ Ev.arm ∈ (tickBody cb s t).trace) ∨
      ((tickBody cb s t).st = s ∧ (tickBody cb s t).trace = [])) := by
  have hseen : chordSeen t = true := by
    cases h : chordSeen t with
    | true => rfl
    | false => rw [tickBody_quiet cb s t h] at ha; simp at ha
  refine ⟨hseen, ?_⟩
  rw [tickBody_eq] at ha ⊢
  by_cases hc : connected t = []
  · simp [hc] at ha
  · simp only [hc, if_false] at ha ⊢
    exact visit_armed cb t.now (connected t) s ha

/-! ## Runs of passes -/

theorem runTicks_append (cb : Bool) (l1 l2 : List Tick) :
    ∀ s : ComboState, runTicks cb s (l1 ++ l2) = runTicks cb (runTicks cb s l1) l2 := by
  induction l1 with
  | nil => intro s; rfl
  | cons t rest ih => intro s; simp [runTicks, ih]

theorem fireTimes_append (cb : Bool) (l1 l2 : List Tick) :
    ∀ s : ComboState,
      fireTimes cb s (l1 ++ l2) = fireTimes cb s l1 ++ fireTimes cb (runTicks cb s l1) l2 := by
  induction l1 with
  | nil => intro s; rfl
  | cons t rest ih => intro s; simp [runTicks, fireTimes, ih]

theorem callCount_append (cb : Bool) (l1 l2 : List Tick) :
    ∀ s : ComboState,
      callCount cb s (l1 ++ l2) = callCount cb s l1 + callCount cb (runTicks cb s l1) l2 := by
  induction l1 with
  | nil => intro s; simp [callCount, runTicks]
  | cons t rest ih => intro s; simp [runTicks, callCount, ih, Nat.add_assoc]

/-- Every fire time is the clock value of one of the passes. -/
theorem fireTimes_subset (cb : Bool) (ticks : List Tick) :
    ∀ s : ComboState, ∀ b ∈ fireTimes cb s ticks, ∃ t ∈ ticks, t.now = b := by
  induction ticks with
  | nil => intro s b hb; simp [fireTimes] at hb
  | cons t rest ih =>
    intro s b hb
    simp only [fireTimes, List.mem_append] at hb
    rcases hb with hb | hb
    · by_cases hf : fired (tickBody cb s t) = true
      · simp [hf] at hb
        exact ⟨t, by simp, hb.symm⟩
      · simp [hf] at hb
    · obtain ⟨u, hu, hub⟩ := ih _ b hb
      exact ⟨u, by simp [hu], hub⟩

/-- Passes in which no answering slot holds the chord: nothing fires, nothing
is called, and the locals only lose the armed flag. -/
theorem run_quiet (cb : Bool) (ticks : List Tick) :
    ∀ s : ComboState, (∀ t ∈ ticks, chordSeen t = false) →
      fireTimes cb s ticks = [] ∧ callCount cb s ticks = 0 ∧
      runTicks cb s ticks = if ticks = [] then s else { s with comboArmed := false } := by
  induction ticks with
  | nil => intro s _; simp [fireTimes, callCount, runTicks]
  | cons t rest ih =>
    intro s hq
    have ht := tickBody_quiet cb s t (hq t (by simp))
    obtain ⟨h1, h2, h3⟩ := ih { s with comboArmed := false } (fun u hu => hq u (by simp [hu]))
    simp only [fireTimes, callCount, runTicks, ht, h1, h2, h3]
    by_cases hr : rest = [] <;> simp [hr, fired, calls]

/-! ## Holds on a single answering slot -/

theorem soloHeld_iff (t : Tick) :
    soloHeld t = true ↔ ∃ w, connected t = [w] ∧ chordPressed w = true := by
  unfold soloHeld
  split
  · next w h => simp [h]
  · next h =>
    simp only [Bool.false_eq_true, false_iff, not_exists, not_and]
    intro w hw
    exact absurd hw (h w)

theorem soloReleased_iff (t : Tick) :
    soloReleased t = true ↔ ∃ w, connected t = [w] ∧ chordPressed w = false := by
  unfold soloReleased
  split
  · next w h => simp [h]
  · next h =>
    simp only [Bool.false_eq_true, false_iff, not_exists, not_and]
    intro w hw
    exact absurd hw (h w)

theorem chordSeen_of_soloReleased (t : Tick) (h : soloReleased t = true) :
    chordSeen t = false := by
  obtain ⟨w, hc, hw⟩ := (soloReleased_iff t).1 h
  rw [chordSeen_false_iff, hc]
  simpa using hw

/-- A held pass on a detector that is not armed arms it at the pass's clock
value and does not fire. -/
theorem held_arm (cb : Bool) (s : ComboState) (t : Tick) (hh : soloHeld t = true)
    (ha : s.comboArmed = false) :
    tickBody cb s t =
      { st := { s with comboArmed := true, holdStart := t.now }, trace := [Ev.arm] } := by
  obtain ⟨w, hc, hw⟩ := (soloHeld_iff t).1 hh
  rw [tickBody_solo cb s t w hc, slotBody_arm hw ha]

/-- A held pass on an armed detector whose hold or cooldown test fails changes
nothing. -/
theorem held_wait (cb : Bool) (s : ComboState) (t : Tick) (hh : soloHeld t = true)
    (ha : s.comboArmed = true)
    (hn : ¬(holdMs ≤ dwordSub t.now s.holdStart ∧ cooldownMs ≤ dwordSub t.now s.lastFireTick)) :
    tickBody cb s t = { st := s, trace := [] } := by
  obtain ⟨w, hc, hw⟩ := (soloHeld_iff t).1 hh
  rw [tickBody_solo cb s t w hc, slotBody_wait hw ha hn]

/-- A held pass on an armed detector whose hold and cooldown tests pass fires. -/
theorem held_fire (cb : Bool) (s : ComboState) (t : Tick) (hh : soloHeld t = true)
    (ha : s.comboArmed = true) (h1 : holdMs ≤ dwordSub t.now s.holdStart)
    (h2 : cooldownMs ≤ dwordSub t.now s.lastFireTick) :
    tickBody cb s t =
      { st := { s with lastFireTick := t.now, comboArmed := false },
        trace := Ev.fire :: (if cb then [Ev.call] else []) } := by
  obtain ⟨w, hc, hw⟩ := (soloHeld_iff t).1 hh
  rw [tickBody_solo cb s t w hc, slotBody_fire hw ha h1 h2]

/-- Held passes on an armed detector, none of which passes both tests: nothing
fires and the locals stay as they are. -/
theorem held_waiting (cb : Bool) (s : ComboState) (ticks : List Tick)
    (ha : s.comboArmed = true) (hh : ∀ t ∈ ticks, soloHeld t = true)
    (hn : ∀ t ∈ ticks,
      ¬(holdMs ≤ dwordSub t.now s.holdStart ∧ cooldownMs ≤ dwordSub t.now s.lastFireTick)) :
    fireTimes cb s ticks = [] ∧ runTicks cb s ticks = s := by
  induction ticks with
  | nil => simp [fireTimes, runTicks]
  | cons t rest ih =>
    have ht := held_wait cb s t (hh t (by simp)) ha (hn t (by simp))
    obtain ⟨h1, h2⟩ := ih (fun u hu => hh u (by simp [hu])) (fun u hu => hn u (by simp [hu]))
    simp [fireTimes, runTicks, ht, h1, h2, fired]

/-- A hold on a single slot that starts on a detector that is not armed: the
pass `t0` arms, the passes `pre` wait, and the first pass `tk` that passes the
hold test (measured from `t0`) and the cooldown test fires. -/
theorem held_until (cb : Bool) (s : ComboState) (t0 : Tick) (pre : List Tick) (tk : Tick)
    (ha : s.comboArmed = false)
    (hh : ∀ t ∈ t0 :: pre ++ [tk], soloHeld t = true)
    (hn : ∀ t ∈ pre,
      ¬(holdMs ≤ dwordSub t.now t0.now ∧ cooldownMs ≤ dwordSub t.now s.lastFireTick))
    (h1 : holdMs ≤ dwordSub tk.now t0.now)
    (h2 : cooldownMs ≤ dwordSub tk.now s.lastFireTick) :
    fireTimes cb s (t0 :: pre ++ [tk]) = [tk.now] ∧
    runTicks cb s (t0 :: pre ++ [tk]) =
      { holdStart := t0.now, comboArmed := false, lastFireTick := tk.now } ∧
    fired (tickBody cb (runTicks cb s (t0 :: pre)) tk) = true := by
  have e0 := held_arm cb s t0 (hh t0 (by simp)) ha
  obtain ⟨w1, w2⟩ := held_waiting cb { s with comboArmed := true, holdStart := t0.now } pre rfl
    (fun u hu => hh u (by simp [hu])) hn
  have ek := held_fire cb { s with comboArmed := true, holdStart := t0.now } tk
    (hh tk (by simp)) rfl h1 h2
  have hrun : runTicks cb s (t0 :: pre) = { s with comboArmed := true, holdStart := t0.now } := by
    simp [runTicks, e0, w2]
  refine ⟨?_, ?_, ?_⟩
  · rw [List.cons_append, fireTimes, e0, fireTimes_append, w1, w2]
    simp [fireTimes, ek, fired]
  · rw [List.cons_append, runTicks, e0, runTicks_append, w2]
    simp [runTicks, ek]
  · rw [hrun, ek]
    simp [fired]

/-- Split a list at its first element satisfying `p`. -/
theorem exists_first {α : Type} (p : α → Prop) [DecidablePred p] (l : List α)
    (h : ∃ x ∈ l, p x) :
    ∃ pre x post, l = pre ++ x :: post ∧ p x ∧ ∀ y ∈ pre, ¬ p y := by
  induction l with
  | nil => simp at h
  | cons a rest ih =>
    by_cases ha : p a
    · exact ⟨[], a, rest, rfl, ha, by simp⟩
    · have h2 : ∃ x ∈ rest, p x := by
        obtain ⟨x, hx, hp⟩ := h
        rcases List.mem_cons.1 hx with rfl | hx
        · exact absurd hp ha
        · exact ⟨x, hx, hp⟩
      obtain ⟨pre, x, post, e, hp, hpre⟩ := ih h2
      refine ⟨a :: pre, x, post, by simp [e], hp, ?_⟩
      intro y hy
      rcases List.mem_cons.1 hy with rfl | hy
      · exact ha
      · exact hpre y hy

/-! ## Separation of fires -/

/-- When `lastFireTick` is not ahead of the clock, every later fire comes at
least `cooldownMs` after it. -/
theorem fireTimes_after (cb : Bool) (ticks : List Tick) :
    ∀ s : ComboState, (∀ t ∈ ticks, s.lastFireTick ≤ t.now) →
      ticks.Pairwise (fun a b => a.now ≤ b.now) → (∀ t ∈ ticks, t.now < 4294967296) →
      ∀ b ∈ fireTimes cb s ticks, s.lastFireTick + cooldownMs ≤ b := by
  induction ticks with
  | nil => intro s _ _ _ b hb; simp [fireTimes] at hb
  | cons t rest ih =>
    intro s hl hp hw b hb
    have hle := hl t (by simp)
    have hlt := hw t (by simp)
    rw [List.pairwise_cons] at hp
    simp only [fireTimes, List.mem_append] at hb
    by_cases hf : fired (tickBody cb s t) = true
    · obtain ⟨_, _, h3, h4, _⟩ := tickBody_fired cb s t hf
      rw [dwordSub_of_le hle hlt] at h3
      rcases hb with hb | hb
      · simp [hf] at hb
        omega
      · have := ih (tickBody cb s t).st (fun u hu => by rw [h4]; exact hp.1 u hu) hp.2
          (fun u hu => hw u (by simp [hu])) b hb
        rw [h4] at this
        omega
    · rcases hb with hb | hb
      · simp [hf] at hb
      · have hlast := tickBody_lastFire cb s t (by simpa using hf)
        have := ih (tickBody cb s t).st (fun u hu => by rw [hlast]; exact hl u (by simp [hu]))
          hp.2 (fun u hu => hw u (by simp [hu])) b hb
        rw [hlast] at this
        exact this

/-- Along a non-decreasing, non-wrapping clock any two fires are at least
`cooldownMs` apart, whatever the locals were at the start. -/
theorem fireTimes_separated (cb : Bool) (ticks : List Tick) :
    ∀ s : ComboState, ticks.Pairwise (fun a b => a.now ≤ b.now) →
      (∀ t ∈ ticks, t.now < 4294967296) →
      (fireTimes cb s ticks).Pairwise (fun a b => a + cooldownMs ≤ b) := by
  induction ticks with
  | nil => intro s _ _; simp [fireTimes]
  | cons t rest ih =>
    intro s hp hw
    rw [List.pairwise_cons] at hp
    have hrest := ih (tickBody cb s t).st hp.2 (fun u hu => hw u (by simp [hu]))
    by_cases hf : fired (tickBody cb s t) = true
    · obtain ⟨_, _, _, h4, _⟩ := tickBody_fired cb s t hf
      have hafter := fireTimes_after cb rest (tickBody cb s t).st
        (fun u hu => by rw [h4]; exact hp.1 u hu) hp.2 (fun u hu => hw u (by simp [hu]))
      rw [h4] at hafter
      simp only [fireTimes, hf, if_true, List.singleton_append, List.pairwise_cons]
      exact ⟨hafter, hrest⟩
    · simp only [fireTimes, hf, List.nil_append]
      simpa using hrest

/-! ## C1: no chord, no fire -/

/-- C1: for every initial detector state, with or without a callback, and every
finite sequence of passes in which no successfully queried slot has START and
BACK both set, no pass reaches the fire decision and no pass issues the
notification call; over the whole sequence there is no fire and no call. -/
theorem C1_no_chord_never_fires (cb : Bool) (s : ComboState) (ticks : List Tick)
    (hq : ∀ t ∈ ticks, chordSeen t = false) :
    (∀ pre t post, ticks = pre ++ t :: post →
      fired (tickBody cb (runTicks cb s pre) t) = false ∧
      calls (tickBody cb (runTicks cb s pre) t) = 0) ∧
    fireTimes cb s ticks = [] ∧ callCount cb s ticks = 0 := by
  refine ⟨?_, (run_quiet cb ticks s hq).1, (run_quiet cb ticks s hq).2.1⟩
  intro pre t post e
  have ht : chordSeen t = false := hq t (by simp [e])
  rw [tickBody_quiet cb _ t ht]
  simp [fired, calls]

/-- C1 at an armed detector whose hold and cooldown tests would pass: START
alone, START and BACK on different pads, then no pad at all. -/
theorem C1_no_chord_never_fires_witness :
    (∀ t ∈ [pad 0x10 3000, pad2 0x10 0x20 3030, Tick.mk none none none none 3060],
      chordSeen t = false) ∧
    fireTimes true { holdStart := 0, comboArmed := true, lastFireTick := 0 }
      [pad 0x10 3000, pad2 0x10 0x20 3030, Tick.mk none none none none 3060] = [] ∧
    callCount true { holdStart := 0, comboArmed := true, lastFireTick := 0 }
      [pad 0x10 3000, pad2 0x10 0x20 3030, Tick.mk none none none none 3060] = 0 :=
  ⟨by decide,
    (C1_no_chord_never_fires true { holdStart := 0, comboArmed := true, lastFireTick := 0 }
      [pad 0x10 3000, pad2 0x10 0x20 3030, Tick.mk none none none none 3060]
      (by decide)).2⟩

/-! ## C2: a second pad that does not hold the chord -/

theorem tickBody_pad2 (cb : Bool) (s : ComboState) (w0 w1 now : Nat) :
    tickBody cb s (pad2 w0 w1 now) = visit cb now s [w0, w1] := by
  rw [tickBody_eq]
  rfl

/-- Pad 0 holds the chord, pad 1 answers and does not: every pass arms at slot 0
and is disarmed at slot 1, so no pass ever fires, however long the hold. -/
theorem second_pad_idle_never_fires (cb : Bool) (w0 w1 : Nat)
    (h0 : chordPressed w0 = true) (h1 : chordPressed w1 = false) (clocks : List Nat) :
    ∀ s : ComboState, s.comboArmed = false →
      fireTimes cb s (clocks.map fun c => pad2 w0 w1 c) = [] := by
  induction clocks with
  | nil => intro s _; rfl
  | cons c rest ih =>
    intro s hs
    have e : tickBody cb s (pad2 w0 w1 c) =
        { st := { s with comboArmed := false, holdStart := c }, trace := [Ev.arm] } := by
      rw [tickBody_pad2]
      simp [visit, slotBody_arm h0 hs, slotBody_released h1]
    simp only [List.map_cons, fireTimes, e]
    rw [ih _ rfl]
    simp [fired]

/-- Pad 0 answers and does not hold the chord, pad 1 holds it: every pass is
disarmed at slot 0 and arms afresh at slot 1, so no pass ever fires, whatever
the detector state at the start and however long the hold. -/
theorem first_pad_idle_never_fires (cb : Bool) (w0 w1 : Nat)
    (h0 : chordPressed w0 = false) (h1 : chordPressed w1 = true) (clocks : List Nat) :
    ∀ s : ComboState, fireTimes cb s (clocks.map fun c => pad2 w0 w1 c) = [] := by
  induction clocks with
  | nil => intro s; rfl
  | cons c rest ih =>
    intro s
    have e : tickBody cb s (pad2 w0 w1 c) =
        { st := { s with comboArmed := true, holdStart := c }, trace := [Ev.arm] } := by
      rw [tickBody_pad2]
      simp [visit, slotBody_released h0,
        slotBody_arm (s := { s with comboArmed := false }) h1 rfl]
    simp only [List.map_cons, fireTimes, e]
    rw [ih _]
    simp [fired]

/-- C2: the code at the failing input. Pad 0 holds START+BACK on eleven passes
from 3000 to 3300, the detector starts not armed with the cooldown long over.
Alone it fires at 3210; with a second answering pad that does not hold the chord,
in slot 1 or in slot 0, some answering slot holds the chord on every pass and yet
no pass fires, because that pad's `else` branch clears `comboArmed` on every
pass. -/
theorem C2_idle_pad_blocks_fire :
    initLoop.comboArmed = false ∧ cooldownMs ≤ dwordSub 3000 initLoop.lastFireTick ∧
    fireTimes true initLoop ((List.range 11).map fun k => pad 0x30 (3000 + 30 * k)) = [3210] ∧
    (∀ t ∈ (List.range 11).map fun k => pad2 0x30 0 (3000 + 30 * k), chordSeen t = true) ∧
    fireTimes true initLoop ((List.range 11).map fun k => pad2 0x30 0 (3000 + 30 * k)) = [] ∧
    (∀ t ∈ (List.range 11).map fun k => pad2 0 0x30 (3000 + 30 * k), chordSeen t = true) ∧
    fireTimes true initLoop ((List.range 11).map fun k => pad2 0 0x30 (3000 + 30 * k)) = [] := by
  decide

/-! ## C3: an unbroken hold -/

/-- C3, as stated, fails: one pad holds START+BACK without a break, the
detector starts not armed and the cooldown is long over. On the four passes at
3000, 3200, 5200 and 5400 the hold fires at 3200 and again at 5400; on the 81
passes from 3000 to 5400 in steps of 30 it fires at 3210 and again at 5220.
There is no release in between: the pass after a fire arms the detector again. -/
theorem C3_unbroken_hold_fires_twice :
    initLoop.comboArmed = false ∧
    initLoop.lastFireTick + cooldownMs ≤ 3000 ∧
    (∀ t ∈ [pad 0x30 3000, pad 0x30 3200, pad 0x30 5200, pad 0x30 5400], soloHeld t = true) ∧
    fireTimes true initLoop [pad 0x30 3000, pad 0x30 3200, pad 0x30 5200, pad 0x30 5400]
      = [3200, 5400] ∧
    (∀ t ∈ every 30 0x30 3000 81, soloHeld t = true ∧ t.now < 4294967296) ∧
    (every 30 0x30 3000 81).Pairwise (fun a b => a.now ≤ b.now) ∧
    fireTimes true initLoop (every 30 0x30 3000 81) = [3210, 5220] := by
  decide

/-- C3, amended: an unbroken hold on a single pad (passes `t0 :: rest`, clock
non-decreasing and not wrapping) that starts on a detector that is not armed,
with the cooldown over at `t0`, and that lasts at least `holdMs`, fires: the
first fire is at the first pass whose clock value is at least `t0.now + holdMs`;
every further fire of the same hold comes at least `cooldownMs` after that one;
so the hold produces exactly one fire if it ends less than `cooldownMs` after
its first fire. -/
theorem C3_unbroken_hold_first_fire (cb : Bool) (s : ComboState) (t0 : Tick)
    (rest : List Tick)
    (harm : s.comboArmed = false)
    (hheld : ∀ t ∈ t0 :: rest, soloHeld t = true)
    (hmono : (t0 :: rest).Pairwise (fun a b => a.now ≤ b.now))
    (hwrap : ∀ t ∈ t0 :: rest, t.now < 4294967296)
    (hcool : s.lastFireTick + cooldownMs ≤ t0.now)
    (hlong : ∃ t ∈ rest, t0.now + holdMs ≤ t.now) :
    ∃ tf more, fireTimes cb s (t0 :: rest) = tf :: more ∧
      t0.now + holdMs ≤ tf ∧
      (∀ u ∈ t0 :: rest, t0.now + holdMs ≤ u.now → tf ≤ u.now) ∧
      (∀ b ∈ more, tf + cooldownMs ≤ b) ∧
      ((∀ t ∈ rest, t.now < tf + cooldownMs) → more = []) := by
  obtain ⟨pre, tk, post, e, hk, hpre⟩ :=
    exists_first (fun u : Tick => t0.now + holdMs ≤ u.now) rest hlong
  subst e
  rw [List.pairwise_cons] at hmono
  obtain ⟨hm0, hmrest⟩ := hmono
  have hkpost : ∀ u ∈ post, tk.now ≤ u.now :=
    (List.pairwise_cons.1 (List.pairwise_append.1 hmrest).2.1).1
  have ht0 : t0.now < 4294967296 := hwrap t0 (by simp)
  have htk : tk.now < 4294967296 := hwrap tk (by simp)
  have h0k : t0.now ≤ tk.now := hm0 tk (by simp)
  have hn : ∀ u ∈ pre, ¬(holdMs ≤ dwordSub u.now t0.now ∧
      cooldownMs ≤ dwordSub u.now s.lastFireTick) := by
    intro u hu hcon
    have h1 : t0.now ≤ u.now := hm0 u (by simp [hu])
    have h2 : u.now < 4294967296 := hwrap u (by simp [hu])
    have h3 := hcon.1
    rw [dwordSub_of_le h1 h2] at h3
    exact hpre u hu (by omega)
  have h1 : holdMs ≤ dwordSub tk.now t0.now := by
    rw [dwordSub_of_le h0k htk]; omega
  have h2 : cooldownMs ≤ dwordSub tk.now s.lastFireTick := by
    rw [dwordSub_of_le (by omega) htk]; omega
  obtain ⟨f1, f2, _⟩ := held_until cb s t0 pre tk harm
    (fun u hu => hheld u (by
      simp only [List.mem_cons, List.mem_append, List.mem_singleton] at hu ⊢
      tauto)) hn h1 h2
  have hsplit : t0 :: (pre ++ tk :: post) = (t0 :: pre ++ [tk]) ++ post := by simp
  have hafter := fireTimes_after cb post
    { holdStart := t0.now, comboArmed := false, lastFireTick := tk.now } hkpost
    (List.pairwise_cons.1 (List.pairwise_append.1 hmrest).2.1).2
    (fun u hu => hwrap u (by simp [hu]))
  refine ⟨tk.now, fireTimes cb
    { holdStart := t0.now, comboArmed := false, lastFireTick := tk.now } post, ?_, hk, ?_,
    hafter, ?_⟩
  · rw [hsplit, fireTimes_append, f1, f2]
    rfl
  · intro u hu hpu
    simp only [List.mem_cons, List.mem_append] at hu
    rcases hu with rfl | hu | rfl | hu
    · simp [holdMs] at hpu
    · exact absurd hpu (hpre u hu)
    · exact le_rfl
    · exact hkpost u hu
  · intro hshort
    rw [List.eq_nil_iff_forall_not_mem]
    intro b hb
    obtain ⟨u, hu, hub⟩ := fireTimes_subset cb post _ b hb
    have := hafter b hb
    have := hshort u (by simp [hu])
    simp only at *
    omega

/-- C3, amended, on a pad held from 3000 to 3300 in steps of 100: one fire, at
3200. -/
theorem C3_unbroken_hold_first_fire_witness :
    initLoop.comboArmed = false ∧
    (∀ t ∈ pad 0x30 3000 :: every 100 0x30 3100 3, soloHeld t = true) ∧
    (pad 0x30 3000 :: every 100 0x30 3100 3).Pairwise (fun a b => a.now ≤ b.now) ∧
    (∀ t ∈ pad 0x30 3000 :: every 100 0x30 3100 3, t.now < 4294967296) ∧
    initLoop.lastFireTick + cooldownMs ≤ (pad 0x30 3000).now ∧
    (∃ t ∈ every 100 0x30 3100 3, (pad 0x30 3000).now + holdMs ≤ t.now) ∧
    ∃ tf more, fireTimes true initLoop (pad 0x30 3000 :: every 100 0x30 3100 3) = tf :: more ∧
      (pad 0x30 3000).now + holdMs ≤ tf ∧
      (∀ u ∈ pad 0x30 3000 :: every 100 0x30 3100 3,
        (pad 0x30 3000).now + holdMs ≤ u.now → tf ≤ u.now) ∧
      (∀ b ∈ more, tf + cooldownMs ≤ b) ∧
      ((∀ t ∈ every 100 0x30 3100 3, t.now < tf + cooldownMs) → more = []) :=
  ⟨by decide, by decide, by decide, by decide, by decide, by decide,
    C3_unbroken_hold_first_fire true initLoop (pad 0x30 3000) (every 100 0x30 3100 3)
      (by decide) (by decide) (by decide) (by decide) (by decide) (by decide)⟩

/-! ## C4: fires are a cooldown apart -/

/-- C4: along non-decreasing clock values that do not wrap the 32-bit counter,
whatever the detector state at the start, any two passes that reach the fire
decision are at least `cooldownMs` (2000) apart: for an earlier firing pass `a`
and a later firing pass `b`, `a.now + 2000 ≤ b.now`; equivalently the list of
fire times is pairwise separated by 2000. -/
theorem C4_fires_cooldown_apart (cb : Bool) (s : ComboState) (ticks : List Tick)
    (hmono : ticks.Pairwise (fun a b => a.now ≤ b.now))
    (hwrap : ∀ t ∈ ticks, t.now < 4294967296) :
    (∀ pre a mid b post, ticks = pre ++ a :: (mid ++ b :: post) →
      fired (tickBody cb (runTicks cb s pre) a) = true →
      fired (tickBody cb (runTicks cb s (pre ++ a :: mid)) b) = true →
      a.now + cooldownMs ≤ b.now) ∧
    (fireTimes cb s ticks).Pairwise (fun x y => x + cooldownMs ≤ y) := by
  refine ⟨?_, fireTimes_separated cb ticks s hmono hwrap⟩
  intro pre a mid b post e ha hb
  subst e
  have hp : (a :: (mid ++ b :: post)).Pairwise (fun a b : Tick => a.now ≤ b.now) :=
    (List.pairwise_append.1 hmono).2.1
  have hsep := fireTimes_separated cb (a :: (mid ++ b :: post)) (runTicks cb s pre) hp
    (fun u hu => hwrap u (by simp only [List.mem_append]; exact Or.inr hu))
  simp only [fireTimes, ha, if_true, List.singleton_append, List.pairwise_cons] at hsep
  apply hsep.1
  rw [fireTimes_append]
  have hrun : runTicks cb (tickBody cb (runTicks cb s pre) a).st mid
      = runTicks cb s (pre ++ a :: mid) := by
    rw [runTicks_append]; rfl
  simp [fireTimes, hrun, hb]

/-- C4 on a single pad that holds the chord from 3000 to 5400 in steps of 200:
the two fires, at 3200 and 5200, are 2000 apart. -/
theorem C4_fires_cooldown_apart_witness :
    (every 200 0x30 3000 13).Pairwise (fun a b => a.now ≤ b.now) ∧
    (∀ t ∈ every 200 0x30 3000 13, t.now < 4294967296) ∧
    (fireTimes true initLoop (every 200 0x30 3000 13)).Pairwise
      (fun x y => x + cooldownMs ≤ y) ∧
    fireTimes true initLoop (every 200 0x30 3000 13) = [3200, 5200] :=
  ⟨by decide, by decide,
    (C4_fires_cooldown_apart true initLoop (every 200 0x30 3000 13) (by decide) (by decide)).2,
    by decide⟩

/-! ## C5: the first fire of a fresh detector -/

/-- C5, as stated, fails: on a fresh detector a pad holds START+BACK on the
passes 0, 30, ..., 210. The pass at 210 is the first with `now - t0 ≥ 200`, yet it
does not fire, and no pass up to it does: `lastFireTick` starts at 0, so the
cooldown test `now - 0 ≥ 2000` fails. -/
theorem C5_fresh_hold_no_fire_at_210 :
    (∀ t ∈ every 30 0x30 0 8, soloHeld t = true) ∧
    (∀ t ∈ every 30 0x30 0 7, ¬ (0 + holdMs ≤ t.now)) ∧
    0 + holdMs ≤ (pad 0x30 210).now ∧
    every 30 0x30 0 8 = every 30 0x30 0 7 ++ [pad 0x30 210] ∧
    fired (tickBody true (runTicks true initLoop (every 30 0x30 0 7)) (pad 0x30 210)) = false ∧
    fireTimes true initLoop (every 30 0x30 0 8) = [] := by
  decide

/-- C5, amended: on a fresh detector (`lastFireTick = 0`, not armed), with one
pad holding the chord on every pass from `t0` on and a non-decreasing clock that
does not wrap, the first fire is at the first pass `tk` with
`tk.now - t0.now ≥ holdMs` and `tk.now ≥ cooldownMs`, and no earlier pass fires:
the cooldown is measured from the initial `lastFireTick = 0`. -/
theorem C5_fresh_hold_first_fire (cb : Bool) (t0 : Tick) (pre : List Tick) (tk : Tick)
    (hheld : ∀ t ∈ t0 :: pre ++ [tk], soloHeld t = true)
    (hmono : (t0 :: pre ++ [tk]).Pairwise (fun a b => a.now ≤ b.now))
    (hwrap : ∀ t ∈ t0 :: pre ++ [tk], t.now < 4294967296)
    (hpre : ∀ u ∈ pre, ¬(t0.now + holdMs ≤ u.now ∧ cooldownMs ≤ u.now))
    (hk1 : t0.now + holdMs ≤ tk.now) (hk2 : cooldownMs ≤ tk.now) :
    fireTimes cb initLoop (t0 :: pre ++ [tk]) = [tk.now] ∧
    fired (tickBody cb (runTicks cb initLoop (t0 :: pre)) tk) = true := by
  rw [List.cons_append, List.pairwise_cons] at hmono
  have htk : tk.now < 4294967296 := hwrap tk (by simp)
  have h0k : t0.now ≤ tk.now := hmono.1 tk (by simp)
  have hn : ∀ u ∈ pre, ¬(holdMs ≤ dwordSub u.now t0.now ∧
      cooldownMs ≤ dwordSub u.now initLoop.lastFireTick) := by
    intro u hu hcon
    have h1 : t0.now ≤ u.now := hmono.1 u (by simp [hu])
    have h2 : u.now < 4294967296 := hwrap u (by simp [hu])
    obtain ⟨h3, h4⟩ := hcon
    rw [dwordSub_of_le h1 h2] at h3
    rw [show initLoop.lastFireTick = 0 from rfl, dwordSub_of_le (Nat.zero_le _) h2] at h4
    exact hpre u hu ⟨by omega, by omega⟩
  have h1 : holdMs ≤ dwordSub tk.now t0.now := by
    rw [dwordSub_of_le h0k htk]; omega
  have h2 : cooldownMs ≤ dwordSub tk.now initLoop.lastFireTick := by
    rw [show initLoop.lastFireTick = 0 from rfl, dwordSub_of_le (Nat.zero_le _) htk]
    omega
  obtain ⟨f1, _, f3⟩ := held_until cb initLoop t0 pre tk rfl hheld hn h1 h2
  exact ⟨f1, f3⟩

/-- C5, amended, on the passes 0, 30, ..., 2010 of a pad that holds the chord:
the pass at 2010 is the first that is 200 after the start and 2000 after 0, and
it is the one that fires. -/
theorem C5_fresh_hold_first_fire_witness :
    pad 0x30 0 :: every 30 0x30 30 66 ++ [pad 0x30 2010] = every 30 0x30 0 68 ∧
    (∀ t ∈ pad 0x30 0 :: every 30 0x30 30 66 ++ [pad 0x30 2010], soloHeld t = true) ∧
    (∀ u ∈ every 30 0x30 30 66, ¬((pad 0x30 0).now + holdMs ≤ u.now ∧ cooldownMs ≤ u.now)) ∧
    (pad 0x30 0).now + holdMs ≤ (pad 0x30 2010).now ∧ cooldownMs ≤ (pad 0x30 2010).now ∧
    fireTimes true initLoop (pad 0x30 0 :: every 30 0x30 30 66 ++ [pad 0x30 2010]) = [2010] ∧
    fired (tickBody true (runTicks true initLoop (pad 0x30 0 :: every 30 0x30 30 66))
      (pad 0x30 2010)) = true :=
  ⟨by decide, by decide, by decide, by decide, by decide,
    C5_fresh_hold_first_fire true (pad 0x30 0) (every 30 0x30 30 66) (pad 0x30 2010)
      (by decide) (by decide) (by decide) (by decide) (by decide) (by decide)⟩

/-! ## History of an armed detector -/

/-- If the detector is armed after the passes `pre`, then either one of them,
`h`, executed the arming lines, `holdStart` is the clock value of `h`, and every
pass from `h` on saw the chord on some answering slot; or the detector was armed
before `pre`, `holdStart` is still the initial one, and every pass of `pre` saw
the chord. -/
theorem armed_history (cb : Bool) (s0 : ComboState) (pre : List Tick) :
    (runTicks cb s0 pre).comboArmed = true →
      (∃ p h hold, pre = p ++ h :: hold ∧
        Ev.arm ∈ (tickBody cb (runTicks cb s0 p) h).trace ∧
        (runTicks cb s0 pre).holdStart = h.now ∧ ∀ t ∈ h :: hold, chordSeen t = true) ∨
      (s0.comboArmed = true ∧ (runTicks cb s0 pre).holdStart = s0.holdStart ∧
        ∀ t ∈ pre, chordSeen t = true) := by
  induction pre using List.reverseRecOn with
  | nil => intro h; right; simpa [runTicks] using h
  | append_singleton l a ih =>
    intro h
    rw [runTicks_append] at h ⊢
    simp only [runTicks] at h ⊢
    obtain ⟨hseen, hcase⟩ := tickBody_armed cb _ a h
    rcases hcase with ⟨h1, h2⟩ | ⟨h1, _⟩
    · left
      exact ⟨l, a, [], rfl, h2, h1, by simpa using hseen⟩
    · rw [h1] at h ⊢
      rcases ih h with ⟨p, hh, hold, e, ha, hs, hall⟩ | ⟨ha, hs, hall⟩
      · left
        refine ⟨p, hh, hold ++ [a], by simp [e], ha, hs, ?_⟩
        intro t ht
        simp only [List.mem_cons, List.mem_append, List.not_mem_nil, or_false] at ht
        rcases ht with rfl | ht | rfl
        · exact hall _ (by simp)
        · exact hall t (by simp [ht])
        · exact hseen
      · right
        refine ⟨ha, hs, ?_⟩
        intro t ht
        simp only [List.mem_append, List.mem_singleton] at ht
        rcases ht with ht | rfl
        · exact hall t ht
        · exact hseen

/-! ## C6: every fire is backed by a full hold -/

/-- C6: whenever a pass `tk` reaches the fire decision after the passes `pre`,
the detector was armed when `tk` began and `tk.now - holdStart ≥ holdMs` (200);
the pass `h` that recorded `holdStart` executed the arming lines, and on every
pass from `h` up to `tk` some answering slot held the chord (if `holdStart` was
recorded before `pre`, the detector was armed at the start and every pass of
`pre` and `tk` saw the chord). In particular a pass that begins with the
detector not armed, the pass that arms it, does not fire. -/
theorem C6_fire_backed_by_hold (cb : Bool) (s0 : ComboState) (pre : List Tick) (tk : Tick)
    (hf : fired (tickBody cb (runTicks cb s0 pre) tk) = true) :
    (runTicks cb s0 pre).comboArmed = true ∧
    holdMs ≤ dwordSub tk.now (runTicks cb s0 pre).holdStart ∧
    ((∃ p h hold, pre = p ++ h :: hold ∧
        Ev.arm ∈ (tickBody cb (runTicks cb s0 p) h).trace ∧
        (runTicks cb s0 pre).holdStart = h.now ∧
        ∀ t ∈ h :: hold ++ [tk], chordSeen t = true) ∨
      (s0.comboArmed = true ∧ (runTicks cb s0 pre).holdStart = s0.holdStart ∧
        ∀ t ∈ pre ++ [tk], chordSeen t = true)) ∧
    (∀ (s : ComboState) (t : Tick), s.comboArmed = false → fired (tickBody cb s t) = false) := by
  obtain ⟨h1, h2, _, _, _, hseen⟩ := tickBody_fired cb _ tk hf
  refine ⟨h1, h2, ?_, ?_⟩
  · rcases armed_history cb s0 pre h1 with ⟨p, h, hold, e, ha, hs, hall⟩ | ⟨ha, hs, hall⟩
    · left
      refine ⟨p, h, hold, e, ha, hs, ?_⟩
      intro t ht
      simp only [List.mem_append, List.mem_singleton] at ht
      rcases ht with ht | rfl
      · exact hall t ht
      · exact hseen
    · right
      refine ⟨ha, hs, ?_⟩
      intro t ht
      simp only [List.mem_append, List.mem_singleton] at ht
      rcases ht with ht | rfl
      · exact hall t ht
      · exact hseen
  · intro s t hs
    cases hft : fired (tickBody cb s t) with
    | false => rfl
    | true =>
      have := (tickBody_fired cb s t hft).1
      rw [hs] at this
      exact absurd this (by simp)

/-- C6 on a fresh detector and a pad held at 3000, 3100 and 3200: the fire at
3200 is backed by the hold that the pass at 3000 started. -/
theorem C6_fire_backed_by_hold_witness :
    fired (tickBody true (runTicks true initLoop [pad 0x30 3000, pad 0x30 3100])
      (pad 0x30 3200)) = true ∧
    (runTicks true initLoop [pad 0x30 3000, pad 0x30 3100]).comboArmed = true ∧
    holdMs ≤ dwordSub (pad 0x30 3200).now
      (runTicks true initLoop [pad 0x30 3000, pad 0x30 3100]).holdStart :=
  ⟨by decide,
    (C6_fire_backed_by_hold true initLoop [pad 0x30 3000, pad 0x30 3100] (pad 0x30 3200)
      (by decide)).1,
    (C6_fire_backed_by_hold true initLoop [pad 0x30 3000, pad 0x30 3100] (pad 0x30 3200)
      (by decide)).2.1⟩

/-! ## C7: the locals after a fire -/

/-- C7, as stated, fails: the detector is armed since 3000 and two pads hold the
chord at 3300. Slot 0 fires and clears `comboArmed`, slot 1 then finds the chord
held on a detector that is not armed and arms it again: the pass fires and the
detector is armed after it. -/
theorem C7_fire_then_rearmed_same_pass :
    fired (tickBody true { holdStart := 3000, comboArmed := true, lastFireTick := 0 }
      (pad2 0x30 0x30 3300)) = true ∧
    (tickBody true { holdStart := 3000, comboArmed := true, lastFireTick := 0 }
      (pad2 0x30 0x30 3300)).st =
      { holdStart := 3300, comboArmed := true, lastFireTick := 3300 } := by
  decide

/-- C7, amended: if a pass reaches the fire decision then after it
`lastFireTick` is the pass's clock value, and the detector is not armed when
only one slot answered; in general it is either not armed or was armed again
later in the same pass, with `holdStart` the pass's clock value. -/
theorem C7_state_after_fire (cb : Bool) (s : ComboState) (t : Tick)
    (hf : fired (tickBody cb s t) = true) :
    (tickBody cb s t).st.lastFireTick = t.now ∧
    ((tickBody cb s t).st.comboArmed = true →
      (tickBody cb s t).st.holdStart = t.now ∧ Ev.arm ∈ (tickBody cb s t).trace) ∧
    ((connected t).length = 1 → (tickBody cb s t).st.comboArmed = false) := by
  obtain ⟨_, _, _, h4, h5, _⟩ := tickBody_fired cb s t hf
  refine ⟨h4, h5, ?_⟩
  intro hlen
  obtain ⟨w, hw⟩ := List.length_eq_one.1 hlen
  rw [tickBody_solo cb s t w hw] at hf ⊢
  rcases slotBody_cases cb t.now s w with ⟨_, he⟩ | ⟨_, _, he⟩ | ⟨_, _, _, he⟩ | ⟨_, _, _, _, he⟩
  · rw [he] at hf; simp [fired] at hf
  · rw [he] at hf; simp [fired] at hf
  · rw [he] at hf; simp [fired] at hf
  · rw [he]

/-- C7, amended, on a single pad: armed since 3000, the pass at 3300 fires and
leaves the detector not armed with `lastFireTick = 3300`. -/
theorem C7_state_after_fire_witness :
    fired (tickBody true { holdStart := 3000, comboArmed := true, lastFireTick := 0 }
      (pad 0x30 3300)) = true ∧
    (tickBody true { holdStart := 3000, comboArmed := true, lastFireTick := 0 }
      (pad 0x30 3300)).st.lastFireTick = 3300 ∧
    (tickBody true { holdStart := 3000, comboArmed := true, lastFireTick := 0 }
      (pad 0x30 3300)).st.comboArmed = false :=
  ⟨by decide,
    (C7_state_after_fire true { holdStart := 3000, comboArmed := true, lastFireTick := 0 }
      (pad 0x30 3300) (by decide)).1,
    (C7_state_after_fire true { holdStart := 3000, comboArmed := true, lastFireTick := 0 }
      (pad 0x30 3300) (by decide)).2.2 (by decide)⟩

/-! ## C8: release, then a second hold -/

/-- Without a fire decision over the passes `ticks`, `lastFireTick` keeps its
value. -/
theorem runTicks_lastFire_of_no_fire (cb : Bool) (ticks : List Tick) :
    ∀ s : ComboState, fireTimes cb s ticks = [] →
      (runTicks cb s ticks).lastFireTick = s.lastFireTick := by
  induction ticks with
  | nil => intro s _; rfl
  | cons t rest ih =>
    intro s h
    simp only [fireTimes, List.append_eq_nil] at h
    have hnf : fired (tickBody cb s t) = false := by
      cases hf : fired (tickBody cb s t) with
      | false => rfl
      | true => rw [hf] at h; simp at h
    simp only [runTicks]
    rw [ih _ h.2, tickBody_lastFire cb s t hnf]

/-- After the passes `ticks`, `lastFireTick` is the clock value of their last
fire decision. -/
theorem runTicks_lastFire_of_last (cb : Bool) (ticks : List Tick) :
    ∀ (s : ComboState) (earlier : List Nat) (t1 : Nat),
      fireTimes cb s ticks = earlier ++ [t1] →
      (runTicks cb s ticks).lastFireTick = t1 := by
  induction ticks with
  | nil => intro s earlier t1 h; simp [fireTimes] at h
  | cons t rest ih =>
    intro s earlier t1 h
    simp only [fireTimes] at h
    simp only [runTicks]
    rcases List.eq_nil_or_concat (fireTimes cb (tickBody cb s t).st rest) with hnil | ⟨e2, x, hx⟩
    · rw [hnil, List.append_nil] at h
      have hf : fired (tickBody cb s t) = true := by
        cases hf : fired (tickBody cb s t) with
        | true => rfl
        | false => rw [hf] at h; simp at h
      rw [hf] at h
      simp only [if_true] at h
      have h1 : ([] : List Nat) ++ [t.now] = earlier ++ [t1] := h
      have h2 := List.append_inj' h1 rfl
      have ht1 : t.now = t1 := by simpa using h2.2
      rw [runTicks_lastFire_of_no_fire cb rest _ hnil, (tickBody_fired cb s t hf).2.2.2.1, ht1]
    · rw [hx, List.concat_eq_append, ← List.append_assoc] at h
      have h2 := List.append_inj' h rfl
      have hxt : x = t1 := by simpa using h2.2
      rw [List.concat_eq_append] at hx
      rw [ih _ e2 x hx, hxt]

/-- A hold on a single pad that starts on a detector that is not armed, with a
clock that does not decrease or wrap and is not behind `lastFireTick`: if its
last pass `t3` is `holdMs` after its first pass `t2` and `cooldownMs` after
`lastFireTick`, the hold fires, at `t3` at the latest. -/
theorem second_hold_fires (cb : Bool) (s : ComboState) (t2 : Tick) (mid : List Tick)
    (t3 : Tick)
    (ha : s.comboArmed = false)
    (hheld : ∀ t ∈ t2 :: mid ++ [t3], soloHeld t = true)
    (hmono : (t2 :: mid ++ [t3]).Pairwise (fun a b => a.now ≤ b.now))
    (hwrap : ∀ t ∈ t2 :: mid ++ [t3], t.now < 4294967296)
    (hlast : s.lastFireTick ≤ t2.now)
    (hhold : t2.now + holdMs ≤ t3.now)
    (hcool : s.lastFireTick + cooldownMs ≤ t3.now) :
    ∃ b more, fireTimes cb s (t2 :: mid ++ [t3]) = b :: more ∧
      t2.now + holdMs ≤ b ∧ s.lastFireTick + cooldownMs ≤ b ∧ b ≤ t3.now := by
  rw [List.cons_append, List.pairwise_cons] at hmono
  obtain ⟨hm2, hmm⟩ := hmono
  have hm3 : ∀ u ∈ mid, u.now ≤ t3.now := fun u hu =>
    (List.pairwise_append.1 hmm).2.2 u hu t3 (by simp)
  obtain ⟨pre, tk, post, e, hk, hpre⟩ :=
    exists_first (fun u : Tick => t2.now + holdMs ≤ u.now ∧ s.lastFireTick + cooldownMs ≤ u.now)
      (mid ++ [t3]) ⟨t3, by simp, hhold, hcool⟩
  have hmem : ∀ u ∈ pre ++ tk :: post, t2.now ≤ u.now ∧ u.now < 4294967296 := by
    intro u hu
    rw [← e] at hu
    exact ⟨hm2 u hu, hwrap u (by simp only [List.mem_append, List.mem_cons] at hu ⊢; tauto)⟩
  have hk3 : tk.now ≤ t3.now := by
    have : tk ∈ mid ++ [t3] := by rw [e]; simp
    simp only [List.mem_append, List.mem_singleton] at this
    rcases this with h | rfl
    · exact hm3 tk h
    · exact le_rfl
  obtain ⟨k1, k3⟩ := hmem tk (by simp)
  have hn : ∀ u ∈ pre, ¬(holdMs ≤ dwordSub u.now t2.now ∧
      cooldownMs ≤ dwordSub u.now s.lastFireTick) := by
    intro u hu hcon
    obtain ⟨u1, u3⟩ := hmem u (by simp [hu])
    obtain ⟨c1, c2⟩ := hcon
    rw [dwordSub_of_le u1 u3] at c1
    rw [dwordSub_of_le (by omega) u3] at c2
    exact hpre u hu ⟨by omega, by omega⟩
  have h1 : holdMs ≤ dwordSub tk.now t2.now := by
    rw [dwordSub_of_le k1 k3]; omega
  have h2 : cooldownMs ≤ dwordSub tk.now s.lastFireTick := by
    rw [dwordSub_of_le (by omega) k3]; omega
  obtain ⟨g1, _, _⟩ := held_until cb s t2 pre tk ha
    (fun u hu => hheld u (by
      have : u = t2 ∨ u ∈ pre ++ tk :: post := by
        simp only [List.mem_cons, List.mem_append, List.mem_singleton] at hu ⊢
        tauto
      rw [← e] at this
      simp only [List.mem_cons, List.mem_append, List.mem_singleton] at this ⊢
      tauto)) hn h1 h2
  have hsplit : t2 :: (mid ++ [t3]) = (t2 :: pre ++ [tk]) ++ post := by
    rw [e]; simp
  refine ⟨tk.now, fireTimes cb (runTicks cb s (t2 :: pre ++ [tk])) post, ?_, hk.1, hk.2, hk3⟩
  rw [List.cons_append, hsplit, fireTimes_append, g1]
  rfl

/-- C8, as stated, fails: one pad, clock not decreasing. The pad is held at
2800 and fires at 3000 (`t1`); it stays held and fires again at 5000; it is
released at 5100 and held again at 5200 (`t2`) and 5400 (`t3`). Then
`t3 - t2 ≥ 200` and `t3 - t1 ≥ 2000`, yet no pass of the second hold fires: the
cooldown test at 5400 is against the fire at 5000. -/
theorem C8_second_hold_after_refire_silent :
    (∀ t ∈ [pad 0x30 2800, pad 0x30 3000, pad 0x30 3200, pad 0x30 5000],
      soloHeld t = true) ∧
    soloReleased (pad 0 5100) = true ∧
    (∀ t ∈ [pad 0x30 5200, pad 0x30 5400], soloHeld t = true) ∧
    fired (tickBody true (runTicks true initLoop [pad 0x30 2800]) (pad 0x30 3000)) = true ∧
    (pad 0x30 5200).now + holdMs ≤ (pad 0x30 5400).now ∧
    (pad 0x30 3000).now + cooldownMs ≤ (pad 0x30 5400).now ∧
    fireTimes true initLoop
      [pad 0x30 2800, pad 0x30 3000, pad 0x30 3200, pad 0x30 5000, pad 0 5100] = [3000, 5000] ∧
    fireTimes true
      (runTicks true initLoop
        [pad 0x30 2800, pad 0x30 3000, pad 0x30 3200, pad 0x30 5000, pad 0 5100])
      [pad 0x30 5200, pad 0x30 5400] = [] ∧
    fireTimes true initLoop
      [pad 0x30 2800, pad 0x30 3000, pad 0x30 3200, pad 0x30 5000, pad 0 5100,
        pad 0x30 5200, pad 0x30 5400] = [3000, 5000] := by
  decide

/-- C8, amended: with a clock that does not decrease or wrap, let the passes
`before` end with their last fire at `t1` (whatever came before it and
whatever follows it in `before`, on any slots, as long as nothing fires after
`t1`), let the single answering pad have released the chord on the pass `r`,
and hold it on the passes `t2 :: mid ++ [t3]` that follow, with
`t3.now - t2.now ≥ holdMs` and `t3.now - t1 ≥ cooldownMs`. Then a further fire
is produced during that second hold, at a pass whose clock value `b` is at most
`t3.now`; it satisfies both thresholds. -/
theorem C8_fire_in_second_hold (cb : Bool) (s : ComboState) (before : List Tick)
    (earlier : List Nat) (t1 : Nat) (r t2 : Tick) (mid : List Tick) (t3 : Tick)
    (hfire : fireTimes cb s before = earlier ++ [t1])
    (hrel : soloReleased r = true)
    (hheld : ∀ t ∈ t2 :: mid ++ [t3], soloHeld t = true)
    (hmono : (before ++ r :: (t2 :: mid ++ [t3])).Pairwise (fun a b => a.now ≤ b.now))
    (hwrap : ∀ t ∈ before ++ r :: (t2 :: mid ++ [t3]), t.now < 4294967296)
    (hhold : t2.now + holdMs ≤ t3.now)
    (hcool : t1 + cooldownMs ≤ t3.now) :
    ∃ b more, fireTimes cb s (before ++ r :: (t2 :: mid ++ [t3])) = earlier ++ t1 :: b :: more ∧
      t2.now + holdMs ≤ b ∧ t1 + cooldownMs ≤ b ∧ b ≤ t3.now := by
  have hlast := runTicks_lastFire_of_last cb before s earlier t1 hfire
  have hq := tickBody_quiet cb (runTicks cb s before) r (chordSeen_of_soloReleased r hrel)
  obtain ⟨hbb, hbr, hrr⟩ := List.pairwise_append.1 hmono
  rw [List.pairwise_cons] at hbr
  -- the last fire is the clock value of a pass of `before`, so the hold is not behind it
  obtain ⟨u, hu, hut⟩ := fireTimes_subset cb before s t1 (by rw [hfire]; simp)
  have hle : t1 ≤ t2.now := by
    rw [← hut]
    exact hrr u hu t2 (by simp)
  obtain ⟨b, more, hb, b1, b2, b3⟩ := second_hold_fires cb
    { holdStart := (runTicks cb s before).holdStart, comboArmed := false,
      lastFireTick := (runTicks cb s before).lastFireTick } t2 mid t3 rfl hheld hbr.2
    (fun t ht => hwrap t (by
      simp only [List.mem_append, List.mem_cons] at ht ⊢
      tauto))
    (by simpa [hlast] using hle) hhold (by simpa [hlast] using hcool)
  refine ⟨b, more, ?_, b1, by simpa [hlast] using b2, b3⟩
  have hcons : fireTimes cb (runTicks cb s before) (r :: (t2 :: mid ++ [t3])) =
      (if fired (tickBody cb (runTicks cb s before) r) then [r.now] else []) ++
        fireTimes cb (tickBody cb (runTicks cb s before) r).st (t2 :: mid ++ [t3]) := rfl
  rw [fireTimes_append, hfire, hcons, hq, hb]
  simp [fired]

/-- C8, amended, on one pad: held at 2800, it fires at 3000 and stays held at
3030 without firing again; it is released at 3100 and held again from 4000; the
passes at 4000, 4500 and 5000 give the next fire, at 5000. -/
theorem C8_fire_in_second_hold_witness :
    fireTimes true initLoop [pad 0x30 2800, pad 0x30 3000, pad 0x30 3030] = [] ++ [3000] ∧
    soloReleased (pad 0 3100) = true ∧
    (∀ t ∈ pad 0x30 4000 :: [pad 0x30 4500] ++ [pad 0x30 5000], soloHeld t = true) ∧
    (pad 0x30 4000).now + holdMs ≤ (pad 0x30 5000).now ∧
    3000 + cooldownMs ≤ (pad 0x30 5000).now ∧
    ∃ b more, fireTimes true initLoop
        ([pad 0x30 2800, pad 0x30 3000, pad 0x30 3030] ++
          pad 0 3100 :: (pad 0x30 4000 :: [pad 0x30 4500] ++ [pad 0x30 5000]))
        = [] ++ 3000 :: b :: more ∧
      (pad 0x30 4000).now + holdMs ≤ b ∧ 3000 + cooldownMs ≤ b ∧
      b ≤ (pad 0x30 5000).now :=
  ⟨by decide, by decide, by decide, by decide, by decide,
    C8_fire_in_second_hold true initLoop [pad 0x30 2800, pad 0x30 3000, pad 0x30 3030]
      [] 3000 (pad 0 3100) (pad 0x30 4000) [pad 0x30 4500] (pad 0x30 5000)
      (by decide) (by decide) (by decide) (by decide) (by decide) (by decide) (by decide)⟩

/-! ## C9: a pass on which every query fails -/

/-- C9: for every detector state and clock value, a pass on which all four
queries fail reaches no fire decision, issues no call, and leaves the detector
not armed (the other two locals keep their values). After it the hold timer
starts afresh: every later fire, at a pass `tk`, measures its hold from a pass
`h` that comes after the failed one, that saw the chord and executed the arming
lines: `holdStart = h.now` and `tk.now - h.now ≥ holdMs`. -/
theorem C9_all_queries_fail (cb : Bool) (s : ComboState) (t : Tick)
    (hfail : allFailed t = true) :
    tickBody cb s t = { st := { s with comboArmed := false }, trace := [] } ∧
    ∀ (later : List Tick) (tk : Tick),
      fired (tickBody cb (runTicks cb (tickBody cb s t).st later) tk) = true →
      ∃ p h hold, later = p ++ h :: hold ∧ chordSeen h = true ∧
        Ev.arm ∈ (tickBody cb (runTicks cb (tickBody cb s t).st p) h).trace ∧
        (runTicks cb (tickBody cb s t).st later).holdStart = h.now ∧
        holdMs ≤ dwordSub tk.now h.now := by
  have hc : connected t = [] := by
    simpa [allFailed] using hfail
  have hq : chordSeen t = false := by
    rw [chordSeen_false_iff, hc]; simp
  have hbody := tickBody_quiet cb s t hq
  refine ⟨hbody, ?_⟩
  intro later tk hf
  obtain ⟨h1, h2, _⟩ := tickBody_fired cb _ tk hf
  rcases armed_history cb (tickBody cb s t).st later h1 with
    ⟨p, h, hold, e, ha, hs, hall⟩ | ⟨ha, _, _⟩
  · exact ⟨p, h, hold, e, hall h (by simp), ha, hs, by rw [← hs]; exact h2⟩
  · rw [hbody] at ha
    simp at ha

/-- C9 on a detector armed since 3000: the failed pass at 3100 disarms it, the
pad comes back at 3130 and the fire at 3330 measures its hold from 3130. -/
theorem C9_all_queries_fail_witness :
    allFailed (Tick.mk none none none none 3100) = true ∧
    tickBody true { holdStart := 3000, comboArmed := true, lastFireTick := 0 }
      (Tick.mk none none none none 3100) =
      { st := { holdStart := 3000, comboArmed := false, lastFireTick := 0 }, trace := [] } ∧
    fireTimes true { holdStart := 3000, comboArmed := true, lastFireTick := 0 }
      [Tick.mk none none none none 3100, pad 0x30 3130, pad 0x30 3210, pad 0x30 3330] = [3330] :=
  ⟨by decide,
    (C9_all_queries_fail true { holdStart := 3000, comboArmed := true, lastFireTick := 0 }
      (Tick.mk none none none none 3100) (by decide)).1,
    by decide⟩

/-! ## C10: `start()` -/

/-- C10: `Start` on the lifecycle state. With `running` set it changes nothing,
so no second polling thread is spawned. With `running` clear it sets `running`,
spawns exactly one polling thread, which `worker_` then holds, and keeps the
callback and the join count (`terminated` becomes set if the previous
`worker_` was still joinable). Hence `Start` after `Start` is one `Start`. -/
theorem C10_start_idempotent (w : Watcher) :
    (w.running = true → Start w = w) ∧
    (w.running = false →
      (Start w).running = true ∧ (Start w).spawned = w.spawned + 1 ∧
      (Start w).workerJoinable = true ∧ (Start w).cbHeld = w.cbHeld ∧
      (Start w).joined = w.joined ∧
      (Start w).terminated = (w.terminated || w.workerJoinable)) ∧
    Start (Start w) = Start w := by
  refine ⟨?_, ?_, ?_⟩
  · intro h; simp [Start, h]
  · intro h; simp [Start, h]
  · cases h : w.running <;> simp [Start, h]

/-- C10 on a freshly constructed watcher: one thread after one `Start`, and
still one after a second `Start`. -/
theorem C10_start_idempotent_witness :
    newWatcher.running = false ∧
    (Start newWatcher).running = true ∧
    (Start newWatcher).spawned = newWatcher.spawned + 1 ∧
    Start (Start newWatcher) = Start newWatcher :=
  ⟨rfl, ((C10_start_idempotent newWatcher).2.1 rfl).1,
    ((C10_start_idempotent newWatcher).2.1 rfl).2.1,
    (C10_start_idempotent newWatcher).2.2⟩

/-! ## C11: `stop()` -/

/-- C11: `StopInternal` on the lifecycle state. With `running` clear it changes
no field. With `running` set it leaves `running` clear, the polling thread
joined (`worker_` no longer joinable, one more join if it was) and the callback
released; threads spawned and `terminated` keep their values. Hence
`StopInternal` after `StopInternal` is one `StopInternal`, for every state. -/
theorem C11_stop_idempotent (w : Watcher) :
    (w.running = false → StopInternal w = w) ∧
    (w.running = true →
      (StopInternal w).running = false ∧ (StopInternal w).workerJoinable = false ∧
      (StopInternal w).cbHeld = false ∧
      (StopInternal w).joined = w.joined + (if w.workerJoinable then 1 else 0) ∧
      (StopInternal w).spawned = w.spawned ∧ (StopInternal w).terminated = w.terminated) ∧
    StopInternal (StopInternal w) = StopInternal w := by
  refine ⟨?_, ?_, ?_⟩
  · intro h; simp [StopInternal, h]
  · intro h
    cases hj : w.workerJoinable <;> simp [StopInternal, h, hj]
  · cases h : w.running <;> simp [StopInternal, h]

/-- C11 on a started watcher: the first `stop()` joins the thread and releases
the callback, the second changes nothing. -/
theorem C11_stop_idempotent_witness :
    (Start newWatcher).running = true ∧
    (StopInternal (Start newWatcher)).running = false ∧
    (StopInternal (Start newWatcher)).workerJoinable = false ∧
    (StopInternal (Start newWatcher)).cbHeld = false ∧
    StopInternal (StopInternal (Start newWatcher)) = StopInternal (Start newWatcher) :=
  ⟨rfl, ((C11_stop_idempotent (Start newWatcher)).2.1 rfl).1,
    ((C11_stop_idempotent (Start newWatcher)).2.1 rfl).2.1,
    ((C11_stop_idempotent (Start newWatcher)).2.1 rfl).2.2.1,
    (C11_stop_idempotent (Start newWatcher)).2.2⟩

/-! ## C12: polling threads and the handle -/

/-- As long as the polling thread never gives up by itself, `start()` and
`stop()` keep `running_` and the joinability of `worker_` in step, nothing
terminates, and every thread but a running one has been joined. -/
theorem runOps_start_stop (ops : List Op) (hops : ∀ op ∈ ops, op ≠ Op.giveUp) :
    ∀ w : Watcher, w.running = w.workerJoinable → w.terminated = false →
      w.spawned = w.joined + (if w.workerJoinable then 1 else 0) →
      (runOps w ops).running = (runOps w ops).workerJoinable ∧
      (runOps w ops).terminated = false ∧
      (runOps w ops).spawned =
        (runOps w ops).joined + (if (runOps w ops).workerJoinable then 1 else 0) := by
  induction ops with
  | nil => intro w h1 h2 h3; exact ⟨h1, h2, h3⟩
  | cons op rest ih =>
    intro w h1 h2 h3
    have hrest : ∀ o ∈ rest, o ≠ Op.giveUp := fun o ho => hops o (by simp [ho])
    cases op with
    | giveUp => exact absurd rfl (hops Op.giveUp (by simp))
    | start =>
      apply ih hrest
      · cases hr : w.running <;> simp [Op.apply, Start, hr, ← h1]
      · cases hr : w.running
        · have hj : w.workerJoinable = false := by rw [← h1]; exact hr
          simp [Op.apply, Start, hr, h2, hj]
        · simp [Op.apply, Start, hr, h2]
      · cases hr : w.running
        · have hj : w.workerJoinable = false := by rw [← h1]; exact hr
          rw [hj] at h3
          simp only [Op.apply, Start, hr]
          simp at h3 ⊢
          omega
        · simpa [Op.apply, Start, hr] using h3
    | stop =>
      apply ih hrest
      · cases hr : w.running
        · simpa [Op.apply, StopInternal, hr] using h1
        · simp [Op.apply, StopInternal, hr]
      · cases hr : w.running <;> simp [Op.apply, StopInternal, hr, h2]
      · cases hr : w.running
        · simpa [Op.apply, StopInternal, hr] using h3
        · have hj : w.workerJoinable = true := by rw [← h1]; exact hr
          rw [hj] at h3
          simp only [Op.apply, StopInternal, hr, hj]
          simp at h3 ⊢
          omega

/-- Without a polling thread that gives up, destruction after any calls of
`start()` and `stop()` leaves every spawned thread joined and does not
terminate the process. -/
theorem destroy_start_stop (ops : List Op) (hops : ∀ op ∈ ops, op ≠ Op.giveUp) :
    (Destroy (runOps newWatcher ops)).spawned = (Destroy (runOps newWatcher ops)).joined ∧
    (Destroy (runOps newWatcher ops)).workerJoinable = false ∧
    (Destroy (runOps newWatcher ops)).terminated = false := by
  obtain ⟨h1, h2, h3⟩ := runOps_start_stop ops hops newWatcher rfl rfl rfl
  generalize runOps newWatcher ops = w at h1 h2 h3
  cases hr : w.running
  · have hj : w.workerJoinable = false := by rw [← h1]; exact hr
    rw [hj] at h3
    simp [Destroy, StopInternal, hr, hj, h2]
    simpa using h3
  · have hj : w.workerJoinable = true := by rw [← h1]; exact hr
    rw [hj] at h3
    simp [Destroy, StopInternal, hr, hj, h2]
    simpa using h3

/-- C12: the code at the failing input. After `start()` the polling thread
finds no XInput library, stores `false` into `running_` and returns. The
`StopInternal()` of the destructor then returns at its first test without
joining: one thread spawned, none joined, `worker_` still joinable, and its
destruction terminates the process. A second `start()` instead of the
destruction assigns to the joinable `worker_`, which terminates as well. With
the same calls and a thread that does not give up, the thread is joined. -/
theorem C12_given_up_thread_never_joined :
    (runOps newWatcher [Op.start, Op.giveUp]).running = false ∧
    (runOps newWatcher [Op.start, Op.giveUp]).workerJoinable = true ∧
    StopInternal (runOps newWatcher [Op.start, Op.giveUp])
      = runOps newWatcher [Op.start, Op.giveUp] ∧
    (Destroy (runOps newWatcher [Op.start, Op.giveUp])).spawned = 1 ∧
    (Destroy (runOps newWatcher [Op.start, Op.giveUp])).joined = 0 ∧
    (Destroy (runOps newWatcher [Op.start, Op.giveUp])).terminated = true ∧
    (runOps newWatcher [Op.start, Op.giveUp]).terminated = false ∧
    (runOps newWatcher [Op.start, Op.giveUp, Op.start]).terminated = true ∧
    (Destroy (runOps newWatcher [Op.start])).joined = 1 ∧
    (Destroy (runOps newWatcher [Op.start])).terminated = false := by
  decide

/-! ## C13: no XInput library -/

theorem resolveXInput_none (probes : List Probe) (h : ∀ p ∈ probes, p ≠ Probe.resolved) :
    resolveXInput probes = none := by
  induction probes with
  | nil => rfl
  | cons p rest ih =>
    have hrest := ih (fun q hq => h q (by simp [hq]))
    cases p with
    | resolved => exact absurd rfl (h Probe.resolved (by simp))
    | noLibrary => simp [resolveXInput, hrest]
    | noSymbol => simp [resolveXInput, hrest]

/-- C13: when no DLL name yields `XInputGetState`, `PollLoop` stores `false`
into `running_` and returns before the first pass: whatever passes were to
come, no slot is queried, nothing is called and nothing fires. On a watcher
that was not running, after `start()` and that run of the polling thread,
`IsRunning` reads `false`; `start()` itself has returned the same state as for
any other probes (it has no error value), and the failed resolution changes
nothing else: callback, thread count and termination flag are as `start()`
left them. -/
theorem C13_no_provider_resolves (cb : Bool) (probes : List Probe) (ticks : List Tick)
    (w : Watcher) (hnone : ∀ p ∈ probes, p ≠ Probe.resolved) (hstop : w.running = false) :
    PollLoop cb probes ticks =
      { clearedRunning := true, queries := 0, calls := 0, fires := [] } ∧
    IsRunning (Start w) = true ∧
    IsRunning (afterPollLoop probes ticks (Start w)) = false ∧
    afterPollLoop probes ticks (Start w) = { Start w with running := false } := by
  have hres := resolveXInput_none probes hnone
  have hpoll : ∀ c : Bool, PollLoop c probes ticks =
      { clearedRunning := true, queries := 0, calls := 0, fires := [] } := by
    intro c; simp [PollLoop, hres]
  refine ⟨hpoll cb, by simp [IsRunning, Start, hstop], ?_, ?_⟩
  · simp [afterPollLoop, hpoll, pollGivesUp, IsRunning, Start, hstop]
  · simp [afterPollLoop, hpoll, pollGivesUp, Start, hstop]

/-- C13 with the three DLL names of line 82, one missing, one without the
symbol, one missing, and twenty passes that would have fired: no query, no
call, and the watcher reads as not running. -/
theorem C13_no_provider_resolves_witness :
    (∀ p ∈ [Probe.noLibrary, Probe.noSymbol, Probe.noLibrary], p ≠ Probe.resolved) ∧
    newWatcher.running = false ∧
    PollLoop true [Probe.noLibrary, Probe.noSymbol, Probe.noLibrary] (every 30 0x30 3000 20) =
      { clearedRunning := true, queries := 0, calls := 0, fires := [] } ∧
    IsRunning (afterPollLoop [Probe.noLibrary, Probe.noSymbol, Probe.noLibrary]
      (every 30 0x30 3000 20) (Start newWatcher)) = false ∧
    (PollLoop true [Probe.noLibrary, Probe.resolved, Probe.noLibrary]
      (every 30 0x30 3000 20)).calls = 1 :=
  ⟨by decide, rfl,
    (C13_no_provider_resolves true [Probe.noLibrary, Probe.noSymbol, Probe.noLibrary]
      (every 30 0x30 3000 20) newWatcher (by decide) rfl).1,
    (C13_no_provider_resolves true [Probe.noLibrary, Probe.noSymbol, Probe.noLibrary]
      (every 30 0x30 3000 20) newWatcher (by decide) rfl).2.2.1,
    by decide⟩

/-! ## C15: a fire suppressed by the cooldown -/

theorem allHeld_iff (t : Tick) :
    allHeld t = true ↔ connected t ≠ [] ∧ ∀ w ∈ connected t, chordPressed w = true := by
  unfold allHeld
  cases h : connected t <;> simp

/-- Slots that all hold the chord, on an armed detector whose hold or cooldown
test fails: nothing changes. -/
theorem visit_all_wait (cb : Bool) (now : Nat) (s : ComboState) (ws : List Nat)
    (hws : ∀ w ∈ ws, chordPressed w = true) (ha : s.comboArmed = true)
    (hn : ¬(holdMs ≤ dwordSub now s.holdStart ∧ cooldownMs ≤ dwordSub now s.lastFireTick)) :
    visit cb now s ws = { st := s, trace := [] } := by
  induction ws with
  | nil => rfl
  | cons w rest ih =>
    have hr := ih (fun x hx => hws x (by simp [hx]))
    simp [visit, @slotBody_wait cb now s w (hws w (by simp)) ha hn, hr]

/-- What the code keeps when the cooldown test fails on an armed detector: the
pass does not fire and keeps `lastFireTick`, whatever the slots report; a slot
that holds the chord leaves all three locals as they are (also when the hold
test passes), and so does a pass on which every answering slot holds the chord.
So with one pad holding the chord on every pass, the hold test passing and the
clock not wrapping, no pass fires while `now - lastFireTick < cooldownMs`, the
locals stay unchanged, and the first pass with `now - lastFireTick ≥ cooldownMs`
fires. -/
theorem cooldown_keeps_hold (cb : Bool) (s : ComboState) (ha : s.comboArmed = true) :
    (∀ t : Tick, dwordSub t.now s.lastFireTick < cooldownMs →
      fired (tickBody cb s t) = false ∧
      (tickBody cb s t).st.lastFireTick = s.lastFireTick) ∧
    (∀ now w : Nat, chordPressed w = true → dwordSub now s.lastFireTick < cooldownMs →
      slotBody cb now now now s w = { st := s, trace := [] }) ∧
    (∀ t : Tick, allHeld t = true → dwordSub t.now s.lastFireTick < cooldownMs →
      tickBody cb s t = { st := s, trace := [] }) ∧
    (∀ (pre : List Tick) (tk : Tick),
      (∀ t ∈ pre ++ [tk], soloHeld t = true) →
      (∀ t ∈ pre ++ [tk], holdMs ≤ dwordSub t.now s.holdStart) →
      (∀ t ∈ pre ++ [tk], s.lastFireTick ≤ t.now ∧ t.now < 4294967296) →
      (∀ u ∈ pre, u.now < s.lastFireTick + cooldownMs) →
      s.lastFireTick + cooldownMs ≤ tk.now →
      fireTimes cb s (pre ++ [tk]) = [tk.now] ∧ runTicks cb s pre = s ∧
      fired (tickBody cb (runTicks cb s pre) tk) = true) := by
  refine ⟨?_, ?_, ?_, ?_⟩
  · intro t hcool
    have hnf : fired (tickBody cb s t) = false := by
      cases hft : fired (tickBody cb s t) with
      | false => rfl
      | true =>
        have := (tickBody_fired cb s t hft).2.2.1
        omega
    exact ⟨hnf, tickBody_lastFire cb s t hnf⟩
  · intro now w hw hcool
    exact slotBody_wait hw ha (fun h => by have := h.2; omega)
  · intro t hall hcool
    obtain ⟨hne, hws⟩ := (allHeld_iff t).1 hall
    rw [tickBody_eq]
    simp only [hne, if_false]
    exact visit_all_wait cb t.now s (connected t) hws ha (fun h => by have := h.2; omega)
  · intro pre tk hheld hhold hclock hpre hk
    have hn : ∀ u ∈ pre, ¬(holdMs ≤ dwordSub u.now s.holdStart ∧
        cooldownMs ≤ dwordSub u.now s.lastFireTick) := by
      intro u hu hcon
      obtain ⟨c1, c2⟩ := hclock u (by simp [hu])
      have h2 := hcon.2
      rw [dwordSub_of_le c1 c2] at h2
      have := hpre u hu
      omega
    obtain ⟨w1, w2⟩ := held_waiting cb s pre ha (fun u hu => hheld u (by simp [hu])) hn
    obtain ⟨k1, k2⟩ := hclock tk (by simp)
    have ek := held_fire cb s tk (hheld tk (by simp)) ha (hhold tk (by simp))
      (by rw [dwordSub_of_le k1 k2]; omega)
    refine ⟨?_, w2, ?_⟩
    · rw [fireTimes_append, w1, w2]
      simp [fireTimes, ek, fired]
    · rw [w2, ek]
      simp [fired]

/-- The scenario of a fire at 210 and a single pad that holds the chord again
from 300 on, passes every 30: armed at 300, the passes from 510 to 2190 pass
the hold test and are suppressed by the cooldown, the pass at 2220, the first
at or after 2210, fires. -/
theorem cooldown_keeps_hold_scenario :
    runTicks true { holdStart := 0, comboArmed := false, lastFireTick := 210 }
      (every 30 0x30 300 7) = { holdStart := 300, comboArmed := true, lastFireTick := 210 } ∧
    (∀ u ∈ every 30 0x30 510 57, u.now < 210 + cooldownMs) ∧
    210 + cooldownMs ≤ (pad 0x30 2220).now ∧
    fireTimes true { holdStart := 300, comboArmed := true, lastFireTick := 210 }
      (every 30 0x30 510 57 ++ [pad 0x30 2220]) = [2220] ∧
    runTicks true { holdStart := 300, comboArmed := true, lastFireTick := 210 }
      (every 30 0x30 510 57) = { holdStart := 300, comboArmed := true, lastFireTick := 210 } ∧
    fireTimes true { holdStart := 0, comboArmed := false, lastFireTick := 210 }
      (every 30 0x30 300 70) = [2220] :=
  ⟨by decide, by decide, by decide,
    ((cooldown_keeps_hold true { holdStart := 300, comboArmed := true, lastFireTick := 210 }
      rfl).2.2.2 (every 30 0x30 510 57) (pad 0x30 2220) (by decide) (by decide) (by decide)
      (by decide) (by decide)).1,
    ((cooldown_keeps_hold true { holdStart := 300, comboArmed := true, lastFireTick := 210 }
      rfl).2.2.2 (every 30 0x30 510 57) (pad 0x30 2220) (by decide) (by decide) (by decide)
      (by decide) (by decide)).2.1,
    by decide⟩

/-- C15: the code at the failing input. The detector is armed since 300, the
last fire was at 210, and at 600 pad 0 holds START+BACK: the chord is held, the
hold test passes (300 ≥ 200) and only the cooldown test fails (390 < 2000). With
that pad alone the pass changes nothing. With a second answering pad that does
not hold the chord the pass does not fire either, but the hold is not kept: in
slot 1 that pad clears `comboArmed`, in slot 0 it makes the holder record a new
`holdStart = 600`. Over the passes 300, 330, ..., 2670 the pad alone fires at
2220, the first pass with `now - lastFireTick ≥ 2000`; with the idle pad beside
it nothing ever fires. -/
theorem C15_idle_pad_ends_hold :
    chordSeen (pad2 0x30 0 600) = true ∧ chordSeen (pad2 0 0x30 600) = true ∧
    holdMs ≤ dwordSub 600 300 ∧ dwordSub 600 210 < cooldownMs ∧
    tickBody true { holdStart := 300, comboArmed := true, lastFireTick := 210 }
      (pad 0x30 600) =
      { st := { holdStart := 300, comboArmed := true, lastFireTick := 210 }, trace := [] } ∧
    tickBody true { holdStart := 300, comboArmed := true, lastFireTick := 210 }
      (pad2 0x30 0 600) =
      { st := { holdStart := 300, comboArmed := false, lastFireTick := 210 }, trace := [] } ∧
    tickBody true { holdStart := 300, comboArmed := true, lastFireTick := 210 }
      (pad2 0 0x30 600) =
      { st := { holdStart := 600, comboArmed := true, lastFireTick := 210 },
        trace := [Ev.arm] } ∧
    fireTimes true { holdStart := 0, comboArmed := false, lastFireTick := 210 }
      ((List.range 80).map fun k => pad 0x30 (300 + 30 * k)) = [2220] ∧
    fireTimes true { holdStart := 0, comboArmed := false, lastFireTick := 210 }
      ((List.range 80).map fun k => pad2 0x30 0 (300 + 30 * k)) = [] ∧
    fireTimes true { holdStart := 0, comboArmed := false, lastFireTick := 210 }
      ((List.range 80).map fun k => pad2 0 0x30 (300 + 30 * k)) = [] := by
  decide

/-! ## C16: failed queries among answering slots -/

/-- C16: a pass with at least one answering slot is decided by the answering
slots alone, in their order: it is `slotBody` run over their button masks.
Hence any pass with the same clock value and the same answering masks gives the
same locals and the same trace (so the same fire decision); so does the slot
loop over any list of slot results, shorter or longer, that has those answering
masks; and a failed query is skipped with the rest of the loop still run. -/
theorem C16_failed_slots_are_skipped (cb : Bool) (s : ComboState) (t : Tick)
    (hany : connected t ≠ []) :
    tickBody cb s t = visit cb t.now s (connected t) ∧
    (∀ t2 : Tick, t2.now = t.now → connected t2 = connected t →
      tickBody cb s t2 = tickBody cb s t ∧
      fired (tickBody cb s t2) = fired (tickBody cb s t)) ∧
    (∀ (l : List (Option Nat)) (any : Bool), l.reduceOption = connected t →
      (pollSlots cb t.now s any l).st = (tickBody cb s t).st ∧
      (pollSlots cb t.now s any l).trace = (tickBody cb s t).trace ∧
      (pollSlots cb t.now s any l).any = true) ∧
    (∀ (any : Bool) (rest : List (Option Nat)),
      pollSlots cb t.now s any (none :: rest) = pollSlots cb t.now s any rest) := by
  have e : tickBody cb s t = visit cb t.now s (connected t) := by
    rw [tickBody_eq]; simp [hany]
  refine ⟨e, ?_, ?_, ?_⟩
  · intro t2 hnow hconn
    have e2 : tickBody cb s t2 = tickBody cb s t := by
      rw [tickBody_eq cb s t2, tickBody_eq cb s t, hnow, hconn]
    exact ⟨e2, by rw [e2]⟩
  · intro l any hl
    obtain ⟨h1, h2, h3⟩ := pollSlots_eq_visit cb t.now l s any
    rw [hl] at h1 h2 h3
    refine ⟨by rw [h1, e], by rw [h2, e], ?_⟩
    rw [h3]
    cases hc : connected t with
    | nil => exact absurd hc hany
    | cons a r => simp
  · intro any rest
    rfl

/-- C16 on a pad in slot 2 between failed queries: the pass fires exactly as
the same pad alone in slot 0 does. -/
theorem C16_failed_slots_are_skipped_witness :
    connected (pad 0x30 3300) ≠ [] ∧
    connected (Tick.mk none none (some 0x30) none 3300) = connected (pad 0x30 3300) ∧
    tickBody true { holdStart := 3000, comboArmed := true, lastFireTick := 0 }
      (Tick.mk none none (some 0x30) none 3300) =
      tickBody true { holdStart := 3000, comboArmed := true, lastFireTick := 0 }
        (pad 0x30 3300) ∧
    fired (tickBody true { holdStart := 3000, comboArmed := true, lastFireTick := 0 }
      (pad 0x30 3300)) = true :=
  ⟨by decide, by decide,
    ((C16_failed_slots_are_skipped true
      { holdStart := 3000, comboArmed := true, lastFireTick := 0 } (pad 0x30 3300)
      (by decide)).2.1 (Tick.mk none none (some 0x30) none 3300) rfl (by decide)).1,
    by decide⟩

/-! ## C17: at most one call in a pass -/

/-- A pass reaches the fire decision at most once. -/
theorem visit_count_fire (cb : Bool) (now : Nat) (ws : List Nat) :
    ∀ s : ComboState, (visit cb now s ws).trace.count Ev.fire ≤ 1 := by
  induction ws with
  | nil => intro s; simp [visit]
  | cons w rest ih =>
    intro s
    simp only [visit, List.count_append]
    rcases slotBody_cases cb now s w with ⟨_, he⟩ | ⟨_, _, he⟩ | ⟨_, _, _, he⟩ | ⟨_, _, _, _, he⟩
    · rw [he]; simpa using ih _
    · rw [he]; simpa using ih _
    · rw [he]; simpa using ih _
    · rw [he]
      have hnf : Ev.fire ∉
          (visit cb now { s with lastFireTick := now, comboArmed := false } rest).trace := by
        intro h
        have := (visit_fired cb now rest _ h).1
        simp at this
      have h0 := List.count_eq_zero.2 hnf
      cases cb <;> simp [h0]

/-- Calls are only issued at fire decisions, one each. -/
theorem visit_count_call (cb : Bool) (now : Nat) (ws : List Nat) :
    ∀ s : ComboState,
      (visit cb now s ws).trace.count Ev.call ≤ (visit cb now s ws).trace.count Ev.fire := by
  induction ws with
  | nil => intro s; simp [visit]
  | cons w rest ih =>
    intro s
    simp only [visit, List.count_append]
    rcases slotBody_cases cb now s w with ⟨_, he⟩ | ⟨_, _, he⟩ | ⟨_, _, _, he⟩ | ⟨_, _, _, _, he⟩
    · rw [he]; simpa using ih _
    · rw [he]; simpa using ih _
    · rw [he]; simpa using ih _
    · rw [he]
      have := ih { s with lastFireTick := now, comboArmed := false }
      cases cb <;> simp <;> omega

/-- C17: for every detector state, with or without a callback, and every
combination of the four slot results, one pass (clock value constant during the
pass) reaches the fire decision at most once and issues at most one
`BlockingCall`. -/
theorem C17_at_most_one_call (cb : Bool) (s : ComboState) (t : Tick) :
    calls (tickBody cb s t) ≤ 1 ∧ (tickBody cb s t).trace.count Ev.fire ≤ 1 := by
  rw [tickBody_eq]
  by_cases hc : connected t = []
  · simp [hc, calls]
  · simp only [hc, if_false, calls]
    have h1 := visit_count_fire cb t.now (connected t) s
    have h2 := visit_count_call cb t.now (connected t) s
    exact ⟨by omega, h1⟩

/-! ## C18: a watcher started again after `stop()` -/

theorem slotBody_st_cb (cb : Bool) (c1 c2 c3 : Nat) (s : ComboState) (w : Nat) :
    (slotBody cb c1 c2 c3 s w).st = (slotBody true c1 c2 c3 s w).st := by
  simp only [slotBody]
  split_ifs <;> rfl

theorem slotBody_fire_cb (cb : Bool) (c1 c2 c3 : Nat) (s : ComboState) (w : Nat) :
    (slotBody cb c1 c2 c3 s w).trace.count Ev.fire =
      (slotBody true c1 c2 c3 s w).trace.count Ev.fire := by
  cases cb
  · simp only [slotBody]
    split_ifs <;> first | contradiction | simp [List.count_append]
  · rfl

theorem slotBody_no_call (c1 c2 c3 : Nat) (s : ComboState) (w : Nat) :
    (slotBody false c1 c2 c3 s w).trace.count Ev.call = 0 := by
  simp only [slotBody]
  split_ifs <;> first | contradiction | simp [List.count_append]

/-- The locals and the fire decisions of the slot loop do not depend on whether
a callback is held; without one no call is issued. -/
theorem visit_cb (cb : Bool) (now : Nat) (ws : List Nat) :
    ∀ s : ComboState,
      (visit cb now s ws).st = (visit true now s ws).st ∧
      (visit cb now s ws).trace.count Ev.fire = (visit true now s ws).trace.count Ev.fire ∧
      (visit false now s ws).trace.count Ev.call = 0 := by
  induction ws with
  | nil => intro s; simp [visit]
  | cons w rest ih =>
    intro s
    simp only [visit, List.count_append]
    rw [slotBody_st_cb cb now now now s w, slotBody_fire_cb cb now now now s w,
      slotBody_no_call now now now s w]
    obtain ⟨h1, h2, _⟩ := ih (slotBody true now now now s w).st
    obtain ⟨_, _, h3⟩ := ih (slotBody false now now now s w).st
    exact ⟨h1, by rw [h2], by rw [h3]⟩

theorem tickBody_cb (cb : Bool) (s : ComboState) (t : Tick) :
    (tickBody cb s t).st = (tickBody true s t).st ∧
    fired (tickBody cb s t) = fired (tickBody true s t) ∧
    calls (tickBody false s t) = 0 := by
  rw [tickBody_eq cb, tickBody_eq true, tickBody_eq false]
  by_cases hc : connected t = []
  · simp [hc, fired, calls]
  · simp only [hc, if_false]
    obtain ⟨h1, h2, h3⟩ := visit_cb cb t.now (connected t) s
    refine ⟨h1, ?_, h3⟩
    have hiff : ∀ l : List Ev, l.contains Ev.fire = decide (0 < l.count Ev.fire) := by
      intro l
      by_cases hm : Ev.fire ∈ l
      · simp [hm, List.count_pos_iff.2 hm]
      · simp [hm, List.count_eq_zero.2 hm]
    simp only [fired, hiff, h2]

theorem run_cb (cb : Bool) (ticks : List Tick) :
    ∀ s : ComboState,
      runTicks cb s ticks = runTicks true s ticks ∧
      fireTimes cb s ticks = fireTimes true s ticks ∧
      callCount false s ticks = 0 := by
  induction ticks with
  | nil => intro s; simp [runTicks, fireTimes, callCount]
  | cons t rest ih =>
    intro s
    obtain ⟨h1, h2, _⟩ := tickBody_cb cb s t
    obtain ⟨g1, _, g3⟩ := tickBody_cb false s t
    obtain ⟨i1, i2, _⟩ := ih (tickBody true s t).st
    obtain ⟨_, _, i3⟩ := ih (tickBody false s t).st
    refine ⟨?_, ?_, ?_⟩
    · simp only [runTicks, h1, i1]
    · simp only [fireTimes, h1, h2, i2]
    · simp only [callCount, g3, i3]

/-- C18: `stop()` on a running watcher followed by `start()` gives a running
watcher without callback (`StopInternal` clears `cb_`, `Start` does not set
it). For every run of the polling loop it then starts and every sequence of
passes, from any detector state, the fire decisions and the locals are the same
as with a callback, and the number of `BlockingCall`s is zero. -/
theorem C18_restart_never_calls (w : Watcher) (hrun : w.running = true) :
    (Start (StopInternal w)).running = true ∧
    (Start (StopInternal w)).cbHeld = false ∧
    (Start (StopInternal w)).terminated = w.terminated ∧
    (∀ (probes : List Probe) (ticks : List Tick),
      (PollLoop (Start (StopInternal w)).cbHeld probes ticks).calls = 0 ∧
      (PollLoop (Start (StopInternal w)).cbHeld probes ticks).fires =
        (PollLoop true probes ticks).fires) ∧
    (∀ (s : ComboState) (ticks : List Tick),
      callCount (Start (StopInternal w)).cbHeld s ticks = 0 ∧
      fireTimes (Start (StopInternal w)).cbHeld s ticks = fireTimes true s ticks ∧
      runTicks (Start (StopInternal w)).cbHeld s ticks = runTicks true s ticks) := by
  have hcb : (Start (StopInternal w)).cbHeld = false := by
    simp [Start, StopInternal, hrun]
  refine ⟨by simp [Start, StopInternal, hrun], hcb, by simp [Start, StopInternal, hrun], ?_, ?_⟩
  · intro probes ticks
    rw [hcb]
    cases hres : resolveXInput probes with
    | none => simp [PollLoop, hres]
    | some i =>
      simp only [PollLoop, hres]
      exact ⟨(run_cb false ticks initLoop).2.2, (run_cb false ticks initLoop).2.1⟩
  · intro s ticks
    rw [hcb]
    exact ⟨(run_cb false ticks s).2.2, (run_cb false ticks s).2.1, (run_cb false ticks s).1⟩

/-- C18 on a watcher that was started, stopped and started again: a pad held
from 3000 to 3570 reaches the fire decision at 3210, as on the first start, but
the call count is 0 where it was 1. -/
theorem C18_restart_never_calls_witness :
    (Start newWatcher).running = true ∧
    (Start (StopInternal (Start newWatcher))).cbHeld = false ∧
    (PollLoop (Start (StopInternal (Start newWatcher))).cbHeld [Probe.resolved]
      (every 30 0x30 3000 20)).calls = 0 ∧
    (PollLoop (Start (StopInternal (Start newWatcher))).cbHeld [Probe.resolved]
      (every 30 0x30 3000 20)).fires = [3210] ∧
    (PollLoop (Start newWatcher).cbHeld [Probe.resolved] (every 30 0x30 3000 20)).calls = 1 :=
  ⟨rfl, (C18_restart_never_calls (Start newWatcher) rfl).2.1,
    ((C18_restart_never_calls (Start newWatcher) rfl).2.2.2.1 [Probe.resolved]
      (every 30 0x30 3000 20)).1,
    by decide, by decide⟩

/-! ## C19: wrap-around of the tick counter -/

/-- C19: let `Th`, `Tf` and `Tn` be the true times at which `holdStart`,
`lastFireTick` and `now` were read (`Th ≤ Tn`, `Tf ≤ Tn`), each stored as its
value modulo `2^32`. If the elapsed times are below `2^32`, the unsigned
differences the code computes are the elapsed times, also when the counter
wrapped in between; so the hold test decides `Tn - Th ≥ 200`, the cooldown test
decides `Tn - Tf ≥ 2000`, and a slot holding the chord on an armed detector
fires exactly when both hold. -/
theorem C19_wraparound (Th Tf Tn : Nat) (hh : Th ≤ Tn) (hf : Tf ≤ Tn)
    (hdh : Tn - Th < 4294967296) (hdf : Tn - Tf < 4294967296) :
    dwordSub (Tn % 4294967296) (Th % 4294967296) = Tn - Th ∧
    dwordSub (Tn % 4294967296) (Tf % 4294967296) = Tn - Tf ∧
    (holdMs ≤ dwordSub (Tn % 4294967296) (Th % 4294967296) ↔ 200 ≤ Tn - Th) ∧
    (cooldownMs ≤ dwordSub (Tn % 4294967296) (Tf % 4294967296) ↔ 2000 ≤ Tn - Tf) ∧
    (∀ (cb : Bool) (w : Nat), chordPressed w = true →
      (fired (slotBody cb (Tn % 4294967296) (Tn % 4294967296) (Tn % 4294967296)
          { holdStart := Th % 4294967296, comboArmed := true,
            lastFireTick := Tf % 4294967296 } w) = true ↔
        200 ≤ Tn - Th ∧ 2000 ≤ Tn - Tf)) := by
  have e1 : dwordSub (Tn % 4294967296) (Th % 4294967296) = Tn - Th := by
    unfold dwordSub; omega
  have e2 : dwordSub (Tn % 4294967296) (Tf % 4294967296) = Tn - Tf := by
    unfold dwordSub; omega
  refine ⟨e1, e2, by rw [e1]; rfl, by rw [e2]; rfl, ?_⟩
  intro cb w hw
  by_cases hc : 200 ≤ Tn - Th ∧ 2000 ≤ Tn - Tf
  · have := @slotBody_fire cb (Tn % 4294967296)
      { holdStart := Th % 4294967296, comboArmed := true,
        lastFireTick := Tf % 4294967296 } w hw rfl
      (by simp only [e1, holdMs]; exact hc.1) (by simp only [e2, cooldownMs]; exact hc.2)
    rw [this]
    simp [fired, hc]
  · have := @slotBody_wait cb (Tn % 4294967296)
      { holdStart := Th % 4294967296, comboArmed := true,
        lastFireTick := Tf % 4294967296 } w hw rfl
      (by simp only [e1, e2, holdMs, cooldownMs]; exact hc)
    rw [this]
    simp [fired, hc]

/-- C19 across a wrap: the hold started 100 before the counter wrapped and the
last fire was 2000 before it; at 150 after the wrap the stored values are
4294967196, 4294965296 and 150, the differences are 250 and 2150, and the slot
fires. -/
theorem C19_wraparound_witness :
    4294967196 % 4294967296 = 4294967196 ∧ 4294967446 % 4294967296 = 150 ∧
    dwordSub (4294967446 % 4294967296) (4294967196 % 4294967296) = 4294967446 - 4294967196 ∧
    dwordSub (4294967446 % 4294967296) (4294965296 % 4294967296) = 4294967446 - 4294965296 ∧
    fired (slotBody true (4294967446 % 4294967296) (4294967446 % 4294967296)
      (4294967446 % 4294967296)
      { holdStart := 4294967196 % 4294967296, comboArmed := true,
        lastFireTick := 4294965296 % 4294967296 } 0x30) = true :=
  ⟨by decide, by decide,
    (C19_wraparound 4294967196 4294965296 4294967446 (by decide) (by decide) (by decide)
      (by decide)).1,
    (C19_wraparound 4294967196 4294965296 4294967446 (by decide) (by decide) (by decide)
      (by decide)).2.1,
    ((C19_wraparound 4294967196 4294965296 4294967446 (by decide) (by decide) (by decide)
      (by decide)).2.2.2.2 true 0x30 (by decide)).2 ⟨by decide, by decide⟩⟩

end XInputWatcher
